import Mathlib

/-!
Verification of the liquidglass blur engine (boxblur.cpp, gauss_iir.cpp,
gauss_iir_neon.cpp) against its natural-language specification.

Modelling conventions:
* A pixel buffer is a total byte map `Buf := ℤ → ℤ` from absolute byte
  addresses to byte values; the C expression `base[y*stride + x*4 + c]`
  becomes `b (y*stride + 4*x + c)`.
* C `float`/`double` arithmetic is modelled as exact rational arithmetic;
  `static_cast<uint8_t>(f)` / `static_cast<int>(f)` on a non-negative value
  is `Int.floor`.
* The transcendental `exp` is modelled by a fixed truncated Taylor series
  (`expQ`); `sqrtf` and the NEON `vrsqrteq_f32` hardware estimate have no
  exact rational definition and are passed as explicit function parameters.
* A possibly-null pointer argument is modelled by a `Bool` flag next to the
  buffer (`true` = the pointer is null).
* Loop nests that store pixels are modelled as left folds over the row and
  pixel index lists in C iteration order, so overlapping rows (stride
  smaller than width*4) overwrite exactly as the C code does.
-/

namespace LG

/-- Byte buffer: total map from absolute byte address to stored byte. -/
def Buf := ℤ → ℤ

/-- Store value `v` at address `i`. -/
def upd (b : Buf) (i v : ℤ) : Buf := fun j => if j = i then v else b j

/-- Store the 4 bytes of one RGBA pixel at `base .. base+3` (byte order of
the source: channel 0 first). -/
def writePx (b : Buf) (base : ℤ) (v : ℤ × ℤ × ℤ × ℤ) : Buf :=
  upd (upd (upd (upd b base v.1) (base + 1) v.2.1) (base + 2) v.2.2.1) (base + 3) v.2.2.2

/-- Project channel `c` (0..3) out of a stored 4-byte tuple. -/
def get4 (v : ℤ × ℤ × ℤ × ℤ) (c : ℤ) : ℤ :=
  if c = 0 then v.1 else if c = 1 then v.2.1 else if c = 2 then v.2.2.1 else v.2.2.2

/-- One row (or column) of pixel stores: pixel `j` goes to base address
`β j`, value `vals j`, in increasing `j` order as in the C loops. -/
def rowfold (m : ℕ) (β : ℕ → ℤ) (vals : ℕ → ℤ × ℤ × ℤ × ℤ) (b : Buf) : Buf :=
  (List.range m).foldl (fun b' j => writePx b' (β j) (vals j)) b

/-- A full 2D store pass: outer loop `k < n`, inner loop `j < m`, pixel
`(k, j)` stored at `A k + B*j`, exactly the write skeleton of the C loop
nests (`A k = k*stride, B = 4` for row-major passes; `A k = 4*k,
B = stride` for column-major passes). -/
def pass2 (n m : ℕ) (A : ℕ → ℤ) (B : ℤ) (vals : ℕ → ℕ → ℤ × ℤ × ℤ × ℤ) (dst : Buf) : Buf :=
  (List.range n).foldl (fun b k => rowfold m (fun j => A k + B * (j : ℤ)) (vals k) b) dst

/-! ### boxblur.cpp -/

/-- `std::max(0, std::min(n - 1, i))`: edge-replicating index clamp. -/
def clampIdx (n : ℕ) (i : ℤ) : ℤ := max 0 (min ((n : ℤ) - 1) i)

/-- Sum of one channel over the clamped window `x-r .. x+r`
(written as `i = (x-r) + 0 .. (x-r) + 2r`). -/
def winSum (f : ℤ → ℤ) (n r : ℕ) (x : ℤ) : ℤ :=
  ∑ i ∈ Finset.range (2 * r + 1), f (clampIdx n (x - r + i))

/-- The sliding accumulator of `box_blur_h`/`box_blur_v`: initialised over the
clamped window around 0, then updated by adding the incoming edge sample
`min (n-1) (x+r+1)` and subtracting the outgoing one `max 0 (x-r)`. -/
def slideSum (f : ℤ → ℤ) (n r : ℕ) : ℕ → ℤ
  | 0 => winSum f n r 0
  | x + 1 => slideSum f n r x + f (min ((n : ℤ) - 1) ((x : ℤ) + r + 1)) - f (max 0 ((x : ℤ) - r))

/-- `static_cast<uint8_t>(sum * inv + 0.5f)` with `inv = 1/diameter`. -/
def avgByte (s : ℤ) (d : ℕ) : ℤ := ⌊(s : ℚ) * (1 / (d : ℚ)) + 1 / 2⌋

/-- Horizontal one-dimensional box blur: for every row `y`, slide the
4-channel window accumulator across the row and store the rounded averages. -/
def box_blur_h (src dst : Buf) (w h : ℕ) (stride : ℤ) (radius : ℕ) : Buf :=
  pass2 h w (fun y => (y : ℤ) * stride) 4
    (fun y x =>
      (avgByte (slideSum (fun i => src ((y : ℤ) * stride + 4 * i + 0)) w radius x) (2 * radius + 1),
       avgByte (slideSum (fun i => src ((y : ℤ) * stride + 4 * i + 1)) w radius x) (2 * radius + 1),
       avgByte (slideSum (fun i => src ((y : ℤ) * stride + 4 * i + 2)) w radius x) (2 * radius + 1),
       avgByte (slideSum (fun i => src ((y : ℤ) * stride + 4 * i + 3)) w radius x) (2 * radius + 1)))
    dst

/-- Vertical one-dimensional box blur: for every column `x`, slide the
4-channel window accumulator down the column and store the rounded averages. -/
def box_blur_v (src dst : Buf) (w h : ℕ) (stride : ℤ) (radius : ℕ) : Buf :=
  pass2 w h (fun x => 4 * (x : ℤ)) stride
    (fun x y =>
      (avgByte (slideSum (fun j => src (j * stride + 4 * (x : ℤ) + 0)) h radius y) (2 * radius + 1),
       avgByte (slideSum (fun j => src (j * stride + 4 * (x : ℤ) + 1)) h radius y) (2 * radius + 1),
       avgByte (slideSum (fun j => src (j * stride + 4 * (x : ℤ) + 2)) h radius y) (2 * radius + 1),
       avgByte (slideSum (fun j => src (j * stride + 4 * (x : ℤ) + 3)) h radius y) (2 * radius + 1)))
    dst

/-- A freshly `new`-allocated scratch buffer; its bytes are never read before
being written on any path that observes them, so its initial content is
modelled as zero. -/
def zeroBuf : Buf := fun _ => 0

/-- One separable box-blur pass: horizontal into a fresh scratch buffer,
then vertical from the scratch buffer into `dst`. -/
def box_blur_single_pass (src dst : Buf) (w h : ℕ) (stride : ℤ) (radius : ℕ) : Buf :=
  box_blur_v (box_blur_h src zeroBuf w h stride radius) dst w h stride radius

/-- `memcpy(dst, src, n)` at byte granularity. -/
def memcpyN (dst src : Buf) (n : ℤ) : Buf := fun a => if 0 ≤ a ∧ a < n then src a else dst a

/-- Triple box blur entry point `box3_rgba8888_inplace`: validate, reject
`radius ≤ 0`, clamp `radius` to 50, then ping-pong three single passes
through one scratch buffer and `memcpy` the last result back. -/
def box3_rgba8888_inplace (baseNull : Bool) (base : Buf) (w h stride radius : ℤ) : Buf :=
  if baseNull ∨ w ≤ 0 ∨ h ≤ 0 ∨ stride < w * 4 then base
  else if radius ≤ 0 then base
  else
    let radius' := if 50 < radius then 50 else radius
    let t1 := box_blur_single_pass base zeroBuf w.toNat h.toNat stride radius'.toNat
    let b1 := box_blur_single_pass t1 base w.toNat h.toNat stride radius'.toNat
    let t2 := box_blur_single_pass b1 t1 w.toNat h.toNat stride radius'.toNat
    memcpyN b1 t2 (h * stride)

/-- Nearest-neighbour resampling `downsample_nearest`: truncated scale
mapping, clamped to the last source row/column. -/
def downsample_nearest (src dst : Buf) (srcW srcH : ℕ) (srcStride : ℤ)
    (dstW dstH : ℕ) (dstStride : ℤ) : Buf :=
  pass2 dstH dstW (fun y => (y : ℤ) * dstStride) 4
    (fun y x =>
      let sy := min ⌊(y : ℚ) * ((srcH : ℚ) / (dstH : ℚ))⌋ ((srcH : ℤ) - 1)
      let sx := min ⌊(x : ℚ) * ((srcW : ℚ) / (dstW : ℚ))⌋ ((srcW : ℤ) - 1)
      (src (sy * srcStride + 4 * sx + 0), src (sy * srcStride + 4 * sx + 1),
       src (sy * srcStride + 4 * sx + 2), src (sy * srcStride + 4 * sx + 3)))
    dst

/-- One channel of the bilinear blend of `downsample_bilinear`. -/
def bilinearByte (src : Buf) (srcStride : ℤ) (y0 y1 x0 x1 : ℤ) (wx wy : ℚ) (c : ℤ) : ℤ :=
  let p00 : ℚ := src (y0 * srcStride + 4 * x0 + c)
  let p10 : ℚ := src (y0 * srcStride + 4 * x1 + c)
  let p01 : ℚ := src (y1 * srcStride + 4 * x0 + c)
  let p11 : ℚ := src (y1 * srcStride + 4 * x1 + c)
  let v0 := p00 * (1 - wx) + p10 * wx
  let v1 := p01 * (1 - wx) + p11 * wx
  ⌊v0 * (1 - wy) + v1 * wy + 1 / 2⌋

/-- Bilinear resampling `downsample_bilinear`: half-pixel-centred continuous
source coordinate, clamped, blended from the 4 neighbours per channel. -/
def downsample_bilinear (src dst : Buf) (srcW srcH : ℕ) (srcStride : ℤ)
    (dstW dstH : ℕ) (dstStride : ℤ) : Buf :=
  pass2 dstH dstW (fun y => (y : ℤ) * dstStride) 4
    (fun y x =>
      let srcX : ℚ := max 0 (min (((x : ℚ) + 1 / 2) * ((srcW : ℚ) / (dstW : ℚ)) - 1 / 2) ((srcW : ℚ) - 1))
      let srcY : ℚ := max 0 (min (((y : ℚ) + 1 / 2) * ((srcH : ℚ) / (dstH : ℚ)) - 1 / 2) ((srcH : ℚ) - 1))
      let x0 := ⌊srcX⌋
      let y0 := ⌊srcY⌋
      let x1 := min (x0 + 1) ((srcW : ℤ) - 1)
      let y1 := min (y0 + 1) ((srcH : ℤ) - 1)
      let wx := srcX - x0
      let wy := srcY - y0
      (bilinearByte src srcStride y0 y1 x0 x1 wx wy 0,
       bilinearByte src srcStride y0 y1 x0 x1 wx wy 1,
       bilinearByte src srcStride y0 y1 x0 x1 wx wy 2,
       bilinearByte src srcStride y0 y1 x0 x1 wx wy 3))
    dst

/-- `upsample_nearest` delegates to the same mapping as the downsampler. -/
def upsample_nearest (src dst : Buf) (srcW srcH : ℕ) (srcStride : ℤ)
    (dstW dstH : ℕ) (dstStride : ℤ) : Buf :=
  downsample_nearest src dst srcW srcH srcStride dstW dstH dstStride

/-- `upsample_bilinear` delegates to the same mapping as the downsampler. -/
def upsample_bilinear (src dst : Buf) (srcW srcH : ℕ) (srcStride : ℤ)
    (dstW dstH : ℕ) (dstStride : ℤ) : Buf :=
  downsample_bilinear src dst srcW srcH srcStride dstW dstH dstStride

/-- Row-wise `memcpy(dst + y*stride, src + y*stride, width*4)` loop used by
the `radius < 0.5` short-circuit of the downsample variants. -/
def copyRows (src dst : Buf) (w h : ℕ) (stride : ℤ) : Buf :=
  pass2 h w (fun y => (y : ℤ) * stride) 4
    (fun y x =>
      (src ((y : ℤ) * stride + 4 * x + 0), src ((y : ℤ) * stride + 4 * x + 1),
       src ((y : ℤ) * stride + 4 * x + 2), src ((y : ℤ) * stride + 4 * x + 3)))
    dst

/-- `downscale = std::max(0.01f, std::min(1.0f, downscale))`. -/
def clampDS (downscale : ℚ) : ℚ := max (1 / 100) (min 1 downscale)

/-- `radius = std::max(0.0f, std::min(25.0f, radius))`. -/
def clampR (radius : ℚ) : ℚ := max 0 (min 25 radius)

/-- `std::max(1, static_cast<int>(dim * downscale + 0.5f))`. -/
def smallDim (n : ℤ) (ds : ℚ) : ℤ := max 1 ⌊(n : ℚ) * ds + 1 / 2⌋

/-- `std::max(1, static_cast<int>(radius * downscale + 0.5f))`: the blur
radius used on the downsampled image. -/
def intRadiusOf (r ds : ℚ) : ℤ := max 1 ⌊r * ds + 1 / 2⌋

/-- Modelled from the spec as the claim reads it: `radius*downscale` floored
(rather than rounded), and at least 1. -/
def intRadiusFloor (r ds : ℚ) : ℤ := max 1 ⌊r * ds⌋

/-- Downsample-optimised box blur `advanced_box_blur_rgba8888` (fast
variant, nearest-neighbour resampling). -/
def advanced_box_blur_rgba8888 (srcNull dstNull : Bool) (src dst : Buf)
    (width height stride : ℤ) (radius downscale : ℚ) : Buf :=
  if srcNull ∨ dstNull ∨ width ≤ 0 ∨ height ≤ 0 ∨ stride < width * 4 then dst
  else
    let ds := clampDS downscale
    let r := clampR radius
    if r < 1 / 2 then copyRows src dst width.toNat height.toNat stride
    else
      let smallWidth := smallDim width ds
      let smallHeight := smallDim height ds
      let smallStride := smallWidth * 4
      let small := downsample_nearest src zeroBuf width.toNat height.toNat stride
        smallWidth.toNat smallHeight.toNat smallStride
      let intRadius := intRadiusOf r ds
      let blurred := box_blur_single_pass small zeroBuf smallWidth.toNat smallHeight.toNat
        smallStride intRadius.toNat
      upsample_nearest blurred dst smallWidth.toNat smallHeight.toNat smallStride
        width.toNat height.toNat stride

/-- Downsample-optimised box blur `advanced_box_blur_rgba8888_hq` (high
quality variant, bilinear resampling). -/
def advanced_box_blur_rgba8888_hq (srcNull dstNull : Bool) (src dst : Buf)
    (width height stride : ℤ) (radius downscale : ℚ) : Buf :=
  if srcNull ∨ dstNull ∨ width ≤ 0 ∨ height ≤ 0 ∨ stride < width * 4 then dst
  else
    let ds := clampDS downscale
    let r := clampR radius
    if r < 1 / 2 then copyRows src dst width.toNat height.toNat stride
    else
      let smallWidth := smallDim width ds
      let smallHeight := smallDim height ds
      let smallStride := smallWidth * 4
      let small := downsample_bilinear src zeroBuf width.toNat height.toNat stride
        smallWidth.toNat smallHeight.toNat smallStride
      let intRadius := intRadiusOf r ds
      let blurred := box_blur_single_pass small zeroBuf smallWidth.toNat smallHeight.toNat
        smallStride intRadius.toNat
      upsample_bilinear blurred dst smallWidth.toNat smallHeight.toNat smallStride
        width.toNat height.toNat stride

/-! ### gauss_iir.cpp -/

/-- Models the C library `exp` by a fixed truncated Taylor series (degree 7);
every theorem below either holds for the resulting exact rationals or does
not depend on the numerical value at all. -/
def expQ (x : ℚ) : ℚ := ∑ k ∈ Finset.range 8, x ^ k / (Nat.factorial k : ℚ)

/-- Deriche IIR filter coefficients (struct `DericheCoeffs`). -/
structure DericheCoeffs where
  a0 : ℚ
  a1 : ℚ
  a2 : ℚ
  a3 : ℚ
  b1 : ℚ
  b2 : ℚ
  coefp : ℚ
  coefn : ℚ
deriving DecidableEq

/-- `compute_deriche_coeffs` of gauss_iir.cpp. -/
def compute_deriche_coeffs (sigma : ℚ) : DericheCoeffs :=
  let alpha := 339 / 200 / sigma
  let ema := expQ (-alpha)
  let ema2 := ema * ema
  let b1 := -2 * ema
  let b2 := ema2
  let k := (1 - ema) * (1 - ema) / (1 + 2 * alpha * ema - ema2)
  let a0 := k
  let a1 := k * ema * (alpha - 1)
  let a2 := k * ema * (alpha + 1)
  let a3 := -k * ema2
  ⟨a0, a1, a2, a3, b1, b2, (a0 + a1) / (1 + b1 + b2), (a2 + a3) / (1 + b1 + b2)⟩

/-- `srgb_to_linear`: fast polynomial 2.2-gamma approximation. -/
def srgb_to_linear (s : ℚ) : ℚ := s * s * (s * (1 / 5) + 4 / 5)

/-- `linear_to_srgb`: `sqrtf(linear) * (1 - 0.2*linear)`; `sqrtf` is the
supplied function parameter. -/
def linear_to_srgb (sqrtQ : ℚ → ℚ) (l : ℚ) : ℚ := sqrtQ l * (1 - 1 / 5 * l)

/-- Causal sweep of `iir_filter_1d`, carrying `(xp1, yp1, yp2)`. -/
def iirCausalGo (c : DericheCoeffs) (xp1 yp1 yp2 : ℚ) : List ℚ → List ℚ
  | [] => []
  | xc :: rest =>
    let yc := c.a0 * xc + c.a1 * xp1 - c.b1 * yp1 - c.b2 * yp2
    yc :: iirCausalGo c xc yc yp1 rest

/-- Causal sweep of `iir_filter_1d`, seeded with `y[-1] = y[-2] = x[0]*coefp`. -/
def iirCausal (c : DericheCoeffs) (xs : List ℚ) : List ℚ :=
  match xs with
  | [] => []
  | x0 :: _ => iirCausalGo c x0 (x0 * c.coefp) (x0 * c.coefp) xs

/-- Anticausal sweep of `iir_filter_1d`, processed from the right, carrying
`(xn1, xn2, yn1, yn2)`; input is the reversed sample list. -/
def iirAntiGo (c : DericheCoeffs) (xn1 xn2 yn1 yn2 : ℚ) : List ℚ → List ℚ
  | [] => []
  | xc :: rest =>
    let yc := c.a2 * xn1 + c.a3 * xn2 - c.b1 * yn1 - c.b2 * yn2
    yc :: iirAntiGo c xc xn1 yc yn1 rest

/-- Anticausal contribution of `iir_filter_1d`, seeded from the last sample
and `coefn`, returned in left-to-right order. -/
def iirAnti (c : DericheCoeffs) (xs : List ℚ) : List ℚ :=
  match xs.reverse with
  | [] => []
  | xl :: rest => (iirAntiGo c xl xl (xl * c.coefn) (xl * c.coefn) (xl :: rest)).reverse

/-- `iir_filter_1d` exactly as the blur passes invoke it, with `src == dst`:
the causal sweep overwrites the buffer, so the anticausal sweep reads the
causal output rather than the original samples. -/
def iir_filter_1d_inplace (c : DericheCoeffs) (xs : List ℚ) : List ℚ :=
  let ys := iirCausal c xs
  List.zipWith (fun a b => a + b) ys (iirAnti c ys)

/-- Modelled from the spec: the 1D recursive pass as §4.3 describes it, with
the anticausal sweep running over the original input samples
(`y[i] = a2*x[i+1] + a3*x[i+2] - b1*y[i+1] - b2*y[i+2]`). -/
def iir_filter_1d_spec (c : DericheCoeffs) (xs : List ℚ) : List ℚ :=
  List.zipWith (fun a b => a + b) (iirCausal c xs) (iirAnti c xs)

/-- One scalar-path pixel load of `blur_horizontal`/`blur_vertical`: bytes in
buffer order (B,G,R,A), normalised to `[0,1]`, optionally un-premultiplied
and converted to linear light when alpha exceeds `0.001`. -/
def scalarLoadPx (doLinear : Bool) (bB bG bR bA : ℤ) : ℚ × ℚ × ℚ × ℚ :=
  let fa : ℚ := (bA : ℚ) / 255
  let fr : ℚ := (bR : ℚ) / 255
  let fg : ℚ := (bG : ℚ) / 255
  let fb : ℚ := (bB : ℚ) / 255
  if doLinear then
    if 1 / 1000 < fa then
      (srgb_to_linear (fr / fa), srgb_to_linear (fg / fa), srgb_to_linear (fb / fa), fa)
    else (0, 0, 0, fa)
  else (fr, fg, fb, fa)

/-- One scalar-path pixel store: clamp alpha to `[0,1]`, optionally convert
back and re-premultiply, clamp colours to `[0,255]` and round; returns the
bytes in buffer order (B,G,R,A). -/
def scalarStorePx (sqrtQ : ℚ → ℚ) (doLinear : Bool) (fr fg fb fa : ℚ) : ℤ × ℤ × ℤ × ℤ :=
  let fa' := max 0 (min 1 fa)
  let fr' := if doLinear then linear_to_srgb sqrtQ fr * fa' else fr
  let fg' := if doLinear then linear_to_srgb sqrtQ fg * fa' else fg
  let fb' := if doLinear then linear_to_srgb sqrtQ fb * fa' else fb
  let r := ⌊max 0 (min 255 (fr' * 255 + 1 / 2))⌋
  let g := ⌊max 0 (min 255 (fg' * 255 + 1 / 2))⌋
  let b := ⌊max 0 (min 255 (fb' * 255 + 1 / 2))⌋
  let a := ⌊fa' * 255 + 1 / 2⌋
  (b, g, r, a)

/-- One row of the scalar `blur_horizontal`: load the row into the planar
float buffer (R, G, B, A channel segments), run the in-place 1D IIR filter
on each channel, and store the row back. -/
def blur_horizontal_row (sqrtQ : ℚ → ℚ) (c : DericheCoeffs) (doLinear : Bool)
    (w : ℕ) (stride : ℤ) (b : Buf) (y : ℕ) : Buf :=
  let px := (List.range w).map (fun x =>
    scalarLoadPx doLinear (b ((y : ℤ) * stride + 4 * x + 0)) (b ((y : ℤ) * stride + 4 * x + 1))
      (b ((y : ℤ) * stride + 4 * x + 2)) (b ((y : ℤ) * stride + 4 * x + 3)))
  let rs := iir_filter_1d_inplace c (px.map (fun p => p.1))
  let gs := iir_filter_1d_inplace c (px.map (fun p => p.2.1))
  let bs := iir_filter_1d_inplace c (px.map (fun p => p.2.2.1))
  let alphas := iir_filter_1d_inplace c (px.map (fun p => p.2.2.2))
  rowfold w (fun x => (y : ℤ) * stride + 4 * x)
    (fun x => scalarStorePx sqrtQ doLinear (rs.getD x 0) (gs.getD x 0) (bs.getD x 0)
      (alphas.getD x 0)) b

/-- Scalar `blur_horizontal`: process every row in order. -/
def blur_horizontal (sqrtQ : ℚ → ℚ) (c : DericheCoeffs) (doLinear : Bool)
    (w h : ℕ) (stride : ℤ) (base : Buf) : Buf :=
  (List.range h).foldl (blur_horizontal_row sqrtQ c doLinear w stride) base

/-- One column of the scalar `blur_vertical`, same structure as the row case. -/
def blur_vertical_col (sqrtQ : ℚ → ℚ) (c : DericheCoeffs) (doLinear : Bool)
    (h : ℕ) (stride : ℤ) (b : Buf) (x : ℕ) : Buf :=
  let px := (List.range h).map (fun y =>
    scalarLoadPx doLinear (b ((y : ℤ) * stride + 4 * x + 0)) (b ((y : ℤ) * stride + 4 * x + 1))
      (b ((y : ℤ) * stride + 4 * x + 2)) (b ((y : ℤ) * stride + 4 * x + 3)))
  let rs := iir_filter_1d_inplace c (px.map (fun p => p.1))
  let gs := iir_filter_1d_inplace c (px.map (fun p => p.2.1))
  let bs := iir_filter_1d_inplace c (px.map (fun p => p.2.2.1))
  let alphas := iir_filter_1d_inplace c (px.map (fun p => p.2.2.2))
  rowfold h (fun y => (y : ℤ) * stride + 4 * x)
    (fun y => scalarStorePx sqrtQ doLinear (rs.getD y 0) (gs.getD y 0) (bs.getD y 0)
      (alphas.getD y 0)) b

/-- Scalar `blur_vertical`: process every column in order. -/
def blur_vertical (sqrtQ : ℚ → ℚ) (c : DericheCoeffs) (doLinear : Bool)
    (w h : ℕ) (stride : ℤ) (base : Buf) : Buf :=
  (List.range w).foldl (blur_vertical_col sqrtQ c doLinear h stride) base

/-- Scalar entry point `gaussian_iir_rgba8888_inplace`: validate pointer,
dimensions and stride, reject `sigma ≤ 0.1`, clamp `sigma` to 50, then run
the horizontal and vertical passes in place. -/
def gaussian_iir_rgba8888_inplace (sqrtQ : ℚ → ℚ) (baseNull : Bool) (base : Buf)
    (w h stride : ℤ) (sigma : ℚ) (doLinear : Bool) : Buf :=
  if baseNull ∨ w ≤ 0 ∨ h ≤ 0 ∨ stride < w * 4 then base
  else if sigma ≤ 1 / 10 then base
  else
    let sigma' := if 50 < sigma then 50 else sigma
    let c := compute_deriche_coeffs sigma'
    blur_vertical sqrtQ c doLinear w.toNat h.toNat stride
      (blur_horizontal sqrtQ c doLinear w.toNat h.toNat stride base)

/-! ### gauss_iir_neon.cpp -/

/-- A `float32x4_t` vector holding the four channels (R,G,B,A) of one pixel. -/
abbrev QPx := ℚ × ℚ × ℚ × ℚ

/-- `vdupq_n_f32` of a coefficient followed by `vmulq_f32`. -/
def vdupMul (q : ℚ) (v : QPx) : QPx := (q * v.1, q * v.2.1, q * v.2.2.1, q * v.2.2.2)

/-- `vaddq_f32`. -/
def vadd (u v : QPx) : QPx := (u.1 + v.1, u.2.1 + v.2.1, u.2.2.1 + v.2.2.1, u.2.2.2 + v.2.2.2)

/-- `vsubq_f32`. -/
def vsub (u v : QPx) : QPx := (u.1 - v.1, u.2.1 - v.2.1, u.2.2.1 - v.2.2.1, u.2.2.2 - v.2.2.2)

/-- `compute_deriche_coeffs` of gauss_iir_neon.cpp (an independent identical
copy of the scalar derivation). -/
def compute_deriche_coeffs_neon (sigma : ℚ) : DericheCoeffs :=
  let alpha := 339 / 200 / sigma
  let ema := expQ (-alpha)
  let ema2 := ema * ema
  let b1 := -2 * ema
  let b2 := ema2
  let k := (1 - ema) * (1 - ema) / (1 + 2 * alpha * ema - ema2)
  let a0 := k
  let a1 := k * ema * (alpha - 1)
  let a2 := k * ema * (alpha + 1)
  let a3 := -k * ema2
  ⟨a0, a1, a2, a3, b1, b2, (a0 + a1) / (1 + b1 + b2), (a2 + a3) / (1 + b1 + b2)⟩

/-- `srgb_to_linear_neon`, applied per lane. -/
def srgb_to_linear_neon (s : ℚ) : ℚ := s * s * (s * (1 / 5) + 4 / 5)

/-- `vrsqrtsq_f32`: the NEON Newton-Raphson reciprocal-square-root step
`(3 - d*e) / 2`. -/
def vrsqrts (d e : ℚ) : ℚ := (3 - d * e) / 2

/-- `linear_to_srgb_neon`, applied per lane: refine the hardware
reciprocal-square-root estimate `rsq` by one Newton-Raphson step, multiply
back to a square root, then apply the inverse-gamma factor. -/
def linear_to_srgb_neon (rsq : ℚ → ℚ) (l : ℚ) : ℚ :=
  let r0 := rsq l
  let r1 := r0 * vrsqrts (l * r0) r0
  l * r1 * (1 - 1 / 5 * l)

/-- Causal sweep of `iir_filter_1d_neon` over pixel vectors. -/
def iirCausalNeonGo (c : DericheCoeffs) (vxp1 vyp1 vyp2 : QPx) : List QPx → List QPx
  | [] => []
  | vxc :: rest =>
    let vyc := vsub (vsub (vadd (vdupMul c.a0 vxc) (vdupMul c.a1 vxp1)) (vdupMul c.b1 vyp1))
      (vdupMul c.b2 vyp2)
    vyc :: iirCausalNeonGo c vxc vyc vyp1 rest

/-- Causal sweep of `iir_filter_1d_neon`, seeded with `x[0] * coefp`. -/
def iirCausalNeon (c : DericheCoeffs) (xs : List QPx) : List QPx :=
  match xs with
  | [] => []
  | x0 :: _ => iirCausalNeonGo c x0 (vdupMul c.coefp x0) (vdupMul c.coefp x0) xs

/-- Anticausal sweep of `iir_filter_1d_neon`, processed from the right. -/
def iirAntiNeonGo (c : DericheCoeffs) (vxn1 vxn2 vyn1 vyn2 : QPx) : List QPx → List QPx
  | [] => []
  | vxc :: rest =>
    let vyc := vsub (vsub (vadd (vdupMul c.a2 vxn1) (vdupMul c.a3 vxn2)) (vdupMul c.b1 vyn1))
      (vdupMul c.b2 vyn2)
    vyc :: iirAntiNeonGo c vxc vxn1 vyc vyn1 rest

/-- Anticausal contribution of `iir_filter_1d_neon`, seeded from the last
pixel vector and `coefn`, returned in left-to-right order. -/
def iirAntiNeon (c : DericheCoeffs) (xs : List QPx) : List QPx :=
  match xs.reverse with
  | [] => []
  | xl :: rest => (iirAntiNeonGo c xl xl (vdupMul c.coefn xl) (vdupMul c.coefn xl) (xl :: rest)).reverse

/-- `iir_filter_1d_neon` exactly as the NEON blur passes invoke it, with
`src == dst`: the anticausal sweep reads the causal output. -/
def iir_filter_1d_neon (c : DericheCoeffs) (xs : List QPx) : List QPx :=
  let ys := iirCausalNeon c xs
  List.zipWith vadd ys (iirAntiNeon c ys)

/-- One NEON-path pixel load: unpack the little-endian `uint32_t`
(byte 0 = B, 1 = G, 2 = R, 3 = A), normalise, and when `doLinear` and alpha
exceeds `1e-5` un-premultiply, convert to linear and re-premultiply. -/
def neonLoadPx (doLinear : Bool) (bB bG bR bA : ℤ) : QPx :=
  let fa : ℚ := (bA : ℚ) / 255
  let fr : ℚ := (bR : ℚ) / 255
  let fg : ℚ := (bG : ℚ) / 255
  let fb : ℚ := (bB : ℚ) / 255
  if doLinear ∧ 1 / 100000 < fa then
    let invA := 1 / fa
    (srgb_to_linear_neon (fr * invA) * fa, srgb_to_linear_neon (fg * invA) * fa,
     srgb_to_linear_neon (fb * invA) * fa, fa)
  else (fr, fg, fb, fa)

/-- One NEON-path pixel store: optional back-conversion under the same alpha
guard, clamp all four lanes to `[0,1]`, round to bytes and repack in buffer
order (B,G,R,A). -/
def neonStorePx (rsq : ℚ → ℚ) (doLinear : Bool) (fr fg fb fa : ℚ) : ℤ × ℤ × ℤ × ℤ :=
  let fr' := if doLinear ∧ 1 / 100000 < fa then linear_to_srgb_neon rsq (fr * (1 / fa)) * fa else fr
  let fg' := if doLinear ∧ 1 / 100000 < fa then linear_to_srgb_neon rsq (fg * (1 / fa)) * fa else fg
  let fb' := if doLinear ∧ 1 / 100000 < fa then linear_to_srgb_neon rsq (fb * (1 / fa)) * fa else fb
  let rc := max 0 (min 1 fr')
  let gc := max 0 (min 1 fg')
  let bc := max 0 (min 1 fb')
  let ac := max 0 (min 1 fa)
  (⌊bc * 255 + 1 / 2⌋, ⌊gc * 255 + 1 / 2⌋, ⌊rc * 255 + 1 / 2⌋, ⌊ac * 255 + 1 / 2⌋)

/-- One row of `blur_horizontal_neon`. -/
def blur_horizontal_neon_row (rsq : ℚ → ℚ) (c : DericheCoeffs) (doLinear : Bool)
    (w : ℕ) (stride : ℤ) (b : Buf) (y : ℕ) : Buf :=
  let px := (List.range w).map (fun x =>
    neonLoadPx doLinear (b ((y : ℤ) * stride + 4 * x + 0)) (b ((y : ℤ) * stride + 4 * x + 1))
      (b ((y : ℤ) * stride + 4 * x + 2)) (b ((y : ℤ) * stride + 4 * x + 3)))
  let out := iir_filter_1d_neon c px
  rowfold w (fun x => (y : ℤ) * stride + 4 * x)
    (fun x =>
      let p := out.getD x ((0 : ℚ), (0 : ℚ), (0 : ℚ), (0 : ℚ))
      neonStorePx rsq doLinear p.1 p.2.1 p.2.2.1 p.2.2.2) b

/-- `blur_horizontal_neon`: process every row in order. -/
def blur_horizontal_neon (rsq : ℚ → ℚ) (c : DericheCoeffs) (doLinear : Bool)
    (w h : ℕ) (stride : ℤ) (base : Buf) : Buf :=
  (List.range h).foldl (blur_horizontal_neon_row rsq c doLinear w stride) base

/-- One column of `blur_vertical_neon`. -/
def blur_vertical_neon_col (rsq : ℚ → ℚ) (c : DericheCoeffs) (doLinear : Bool)
    (h : ℕ) (stride : ℤ) (b : Buf) (x : ℕ) : Buf :=
  let px := (List.range h).map (fun y =>
    neonLoadPx doLinear (b ((y : ℤ) * stride + 4 * x + 0)) (b ((y : ℤ) * stride + 4 * x + 1))
      (b ((y : ℤ) * stride + 4 * x + 2)) (b ((y : ℤ) * stride + 4 * x + 3)))
  let out := iir_filter_1d_neon c px
  rowfold h (fun y => (y : ℤ) * stride + 4 * x)
    (fun y =>
      let p := out.getD y ((0 : ℚ), (0 : ℚ), (0 : ℚ), (0 : ℚ))
      neonStorePx rsq doLinear p.1 p.2.1 p.2.2.1 p.2.2.2) b

/-- `blur_vertical_neon`: process every column in order. -/
def blur_vertical_neon (rsq : ℚ → ℚ) (c : DericheCoeffs) (doLinear : Bool)
    (w h : ℕ) (stride : ℤ) (base : Buf) : Buf :=
  (List.range w).foldl (blur_vertical_neon_col rsq c doLinear h stride) base

/-- NEON entry point `gaussian_iir_rgba8888_neon`: rejects `sigma ≤ 0.1`,
`w ≤ 0`, `h ≤ 0` and a null pointer, then runs both passes; note there is
no stride validation and no upper clamp on sigma. -/
def gaussian_iir_rgba8888_neon (rsq : ℚ → ℚ) (baseNull : Bool) (base : Buf)
    (w h stride : ℤ) (sigma : ℚ) (doLinear : Bool) : Buf :=
  if sigma ≤ 1 / 10 ∨ w ≤ 0 ∨ h ≤ 0 ∨ baseNull then base
  else
    let c := compute_deriche_coeffs_neon sigma
    blur_vertical_neon rsq c doLinear w.toNat h.toNat stride
      (blur_horizontal_neon rsq c doLinear w.toNat h.toNat stride base)

/-! ### Definitions taken from the specification text, for refinement
comparisons against the code-derived definitions above. -/

/-- Round to nearest with the `+0.5` mid-point bias of the spec. -/
def roundQ (q : ℚ) : ℤ := ⌊q + 1 / 2⌋

/-- A pixel grid view: channel value at `(x, y, c)`. -/
def Grid := ℤ → ℤ → ℤ → ℤ

/-- The pixel grid of a strided byte buffer. -/
def gridOf (b : Buf) (stride : ℤ) : Grid := fun x y c => b (y * stride + 4 * x + c)

/-- Modelled from the spec (§4.2): horizontal sliding-window average of width
`2r+1`, edge-replicated, output `round(sum / windowWidth)`. -/
def spec_box_h (g : Grid) (w r : ℕ) : Grid := fun x y c =>
  roundQ ((winSum (fun i => g i y c) w r x : ℚ) / (2 * r + 1))

/-- Modelled from the spec (§4.2): one separable box pass, the vertical
sliding-window average applied to the horizontal result. -/
def spec_box_pass (g : Grid) (w h r : ℕ) : Grid := fun x y c =>
  roundQ ((winSum (fun j => spec_box_h g w r x j c) h r y : ℚ) / (2 * r + 1))

/-- Modelled from the spec (§4.1): nearest-neighbour resampling by
integer-truncated scale mapping, clamped to the valid range. -/
def spec_resample_nearest (g : Grid) (srcW srcH dstW dstH : ℕ) : Grid := fun x y c =>
  g (min ⌊(x : ℚ) * ((srcW : ℚ) / (dstW : ℚ))⌋ ((srcW : ℤ) - 1))
    (min ⌊(y : ℚ) * ((srcH : ℚ) / (dstH : ℚ))⌋ ((srcH : ℤ) - 1)) c

/-- Modelled from the spec (§4.1): bilinear resampling with half-pixel-centre
correction, clamping, fractional-part weights and `+0.5` rounding. -/
def spec_resample_bilinear (g : Grid) (srcW srcH dstW dstH : ℕ) : Grid := fun x y c =>
  let srcX : ℚ := max 0 (min (((x : ℚ) + 1 / 2) * ((srcW : ℚ) / (dstW : ℚ)) - 1 / 2) ((srcW : ℚ) - 1))
  let srcY : ℚ := max 0 (min (((y : ℚ) + 1 / 2) * ((srcH : ℚ) / (dstH : ℚ)) - 1 / 2) ((srcH : ℚ) - 1))
  let x0 := ⌊srcX⌋
  let y0 := ⌊srcY⌋
  let x1 := min (x0 + 1) ((srcW : ℤ) - 1)
  let y1 := min (y0 + 1) ((srcH : ℤ) - 1)
  let wx := srcX - x0
  let wy := srcY - y0
  let v0 : ℚ := (g x0 y0 c : ℚ) * (1 - wx) + (g x1 y0 c : ℚ) * wx
  let v1 : ℚ := (g x0 y1 c : ℚ) * (1 - wx) + (g x1 y1 c : ℚ) * wx
  ⌊v0 * (1 - wy) + v1 * wy + 1 / 2⌋

/-- Modelled from the spec (§4.3): the Deriche coefficient derivation written
exactly as the specification states the formulas, over the same
exponential model. -/
def spec_deriche_coeffs (sigma : ℚ) : DericheCoeffs :=
  let alpha : ℚ := (1695 / 1000) / sigma
  let ema := expQ (-alpha)
  let b1 := -2 * ema
  let b2 := ema ^ 2
  let k := (1 - ema) ^ 2 / (1 + 2 * alpha * ema - ema ^ 2)
  let a0 := k
  let a1 := k * ema * (alpha - 1)
  let a2 := k * ema * (alpha + 1)
  let a3 := -k * ema ^ 2
  ⟨a0, a1, a2, a3, b1, b2, (a0 + a1) / (1 + b1 + b2), (a2 + a3) / (1 + b1 + b2)⟩

lemma upd_ne (b : Buf) (i v j : ℤ) (h : j ≠ i) : upd b i v j = b j := by
  simp [upd, h]

lemma writePx_frame (b : Buf) (base : ℤ) (v : ℤ × ℤ × ℤ × ℤ) (a : ℤ)
    (h : ∀ c : ℤ, 0 ≤ c → c < 4 → a ≠ base + c) :
    writePx b base v a = b a := by
  have h0 : a ≠ base := by have := h 0 (by norm_num) (by norm_num); simpa using this
  have h1 : a ≠ base + 1 := h 1 (by norm_num) (by norm_num)
  have h2 : a ≠ base + 2 := h 2 (by norm_num) (by norm_num)
  have h3 : a ≠ base + 3 := h 3 (by norm_num) (by norm_num)
  simp [writePx, upd, h0, h1, h2, h3]

lemma writePx_get (b : Buf) (base : ℤ) (v : ℤ × ℤ × ℤ × ℤ) (c : ℤ)
    (hc0 : 0 ≤ c) (hc : c < 4) :
    writePx b base v (base + c) = get4 v c := by
  interval_cases c <;> simp [writePx, upd, get4]

/-- A fold leaves an address untouched when every step does. -/
lemma foldl_frame {α : Type} (f : Buf → α → Buf) (a : ℤ) :
    ∀ (l : List α) (b : Buf), (∀ b' i, i ∈ l → f b' i a = b' a) → (l.foldl f b) a = b a := by
  intro l
  induction l with
  | nil => intro b _; rfl
  | cons x xs ih =>
    intro b h
    rw [List.foldl_cons, ih _ (fun b' i hi => h b' i (List.mem_cons_of_mem _ hi))]
    exact h b x (List.mem_cons_self _ _)

lemma rowfold_frame (m : ℕ) (β : ℕ → ℤ) (vals : ℕ → ℤ × ℤ × ℤ × ℤ) (b : Buf) (a : ℤ)
    (h : ∀ j : ℕ, j < m → ∀ c : ℤ, 0 ≤ c → c < 4 → a ≠ β j + c) :
    rowfold m β vals b a = b a := by
  refine foldl_frame _ a _ b ?_
  intro b' j hj
  exact writePx_frame b' (β j) (vals j) a (h j (List.mem_range.mp hj))

lemma rowfold_get (m : ℕ) (β : ℕ → ℤ) (vals : ℕ → ℤ × ℤ × ℤ × ℤ) (j : ℕ) (c : ℤ)
    (hj : j < m) (hc0 : 0 ≤ c) (hc : c < 4)
    (hsep : ∀ j' : ℕ, j' < m → j' ≠ j → ∀ c' : ℤ, 0 ≤ c' → c' < 4 → β j' + c' ≠ β j + c) :
    ∀ b : Buf, rowfold m β vals b (β j + c) = get4 (vals j) c := by
  induction m with
  | zero => omega
  | succ m ih =>
    intro b
    rw [rowfold, List.range_succ, List.foldl_append, List.foldl_cons, List.foldl_nil]
    rcases Nat.lt_succ_iff_lt_or_eq.mp hj with hlt | heq
    · rw [writePx_frame _ _ _ _ (fun c' h0 h4 => (hsep m (Nat.lt_succ_self m) (by omega) c' h0 h4).symm)]
      exact ih hlt (fun j' hj' hne => hsep j' (Nat.lt_succ_of_lt hj') hne) _
    · subst heq
      exact writePx_get _ _ _ c hc0 hc

lemma pass2_frame (n m : ℕ) (A : ℕ → ℤ) (B : ℤ) (vals : ℕ → ℕ → ℤ × ℤ × ℤ × ℤ)
    (dst : Buf) (a : ℤ)
    (h : ∀ (k j : ℕ), k < n → j < m → ∀ c : ℤ, 0 ≤ c → c < 4 → a ≠ A k + B * (j : ℤ) + c) :
    pass2 n m A B vals dst a = dst a := by
  refine foldl_frame _ a _ dst ?_
  intro b k hk
  exact rowfold_frame m _ _ b a (fun j hj c h0 h4 => h k j (List.mem_range.mp hk) hj c h0 h4)

lemma pass2_get (n m : ℕ) (A : ℕ → ℤ) (B : ℤ) (vals : ℕ → ℕ → ℤ × ℤ × ℤ × ℤ)
    (k j : ℕ) (c : ℤ) (hk : k < n) (hj : j < m) (hc0 : 0 ≤ c) (hc : c < 4)
    (hsep : ∀ (k' j' : ℕ), k' < n → j' < m → ¬(k' = k ∧ j' = j) →
      ∀ c' : ℤ, 0 ≤ c' → c' < 4 → A k' + B * (j' : ℤ) + c' ≠ A k + B * (j : ℤ) + c) :
    ∀ dst : Buf, pass2 n m A B vals dst (A k + B * (j : ℤ) + c) = get4 (vals k j) c := by
  induction n with
  | zero => omega
  | succ n ih =>
    intro dst
    rw [pass2, List.range_succ, List.foldl_append, List.foldl_cons, List.foldl_nil]
    rcases Nat.lt_succ_iff_lt_or_eq.mp hk with hlt | heq
    · rw [rowfold_frame _ _ _ _ _ (fun j' hj' c' h0 h4 =>
        (hsep n j' (Nat.lt_succ_self n) hj' (by omega) c' h0 h4).symm)]
      exact ih hlt (fun k' j' hk' => hsep k' j' (Nat.lt_succ_of_lt hk')) dst
    · subst heq
      exact rowfold_get m _ _ j c hj hc0 hc
        (fun j' hj' hne c' h0 h4 => hsep k j' hk hj' (by simp [hne]) c' h0 h4) _

/-- Two in-row offsets under distinct row indices give distinct addresses. -/
lemma addr_sep (S y y' off off' : ℤ) (h0 : 0 ≤ off) (h1 : off < S)
    (h0' : 0 ≤ off') (h1' : off' < S) (hne : y ≠ y') :
    y * S + off ≠ y' * S + off' := by
  intro heq
  rcases lt_or_gt_of_ne hne with hlt | hgt
  · have hs : (y + 1) * S ≤ y' * S :=
      mul_le_mul_of_nonneg_right (by omega) (by omega)
    nlinarith
  · have hs : (y' + 1) * S ≤ y * S :=
      mul_le_mul_of_nonneg_right (by omega) (by omega)
    nlinarith

/-- Any write address of a row-major or column-major pixel pass differs from
any in-row padding address, provided the stride covers the pixel span. -/
lemma pad_addr_ne (stride : ℤ) (w : ℕ) (hws : 4 * (w : ℤ) ≤ stride)
    (y' : ℤ) (x : ℤ) (hx0 : 0 ≤ x) (hx : x < (w : ℤ)) (c : ℤ) (hc0 : 0 ≤ c) (hc : c < 4)
    (y0 j : ℤ) (hj : 4 * (w : ℤ) ≤ j) (hj2 : j < stride) :
    y0 * stride + j ≠ y' * stride + 4 * x + c := by
  have hrw : y' * stride + 4 * x + c = y' * stride + (4 * x + c) := by ring
  rw [hrw]
  rcases eq_or_ne y0 y' with rfl | hne
  · intro heq; omega
  · exact addr_sep stride y0 y' j (4 * x + c) (by omega) hj2 (by omega) (by omega) hne

/-- Reading back a pixel written by a row-major pass (`A y = y*S`, `B = 4`). -/
lemma pass2_rows_get (n m : ℕ) (S : ℤ) (vals : ℕ → ℕ → ℤ × ℤ × ℤ × ℤ) (dst : Buf)
    (hS : 4 * (m : ℤ) ≤ S) (k j : ℕ) (c : ℤ)
    (hk : k < n) (hj : j < m) (hc0 : 0 ≤ c) (hc : c < 4) :
    pass2 n m (fun y => (y : ℤ) * S) 4 vals dst ((k : ℤ) * S + 4 * (j : ℤ) + c)
      = get4 (vals k j) c := by
  refine pass2_get n m _ 4 vals k j c hk hj hc0 hc ?_ dst
  intro k' j' hk' hj' hne c' h0' h4'
  rcases eq_or_ne k' k with rfl | hkk
  · have hjj : j' ≠ j := fun h => hne ⟨rfl, h⟩
    have : (4 : ℤ) * (j' : ℤ) + c' ≠ 4 * (j : ℤ) + c := by
      have : (j' : ℤ) ≠ (j : ℤ) := by exact_mod_cast hjj
      omega
    intro heq; omega
  · have h1 : (4 : ℤ) * (j' : ℤ) + c' < S := by
      have : (j' : ℤ) < (m : ℤ) := by exact_mod_cast hj'
      omega
    have h2 : (4 : ℤ) * (j : ℤ) + c < S := by
      have : (j : ℤ) < (m : ℤ) := by exact_mod_cast hj
      omega
    have hcast : ((k' : ℤ)) ≠ (k : ℤ) := by exact_mod_cast hkk
    have := addr_sep S (k' : ℤ) (k : ℤ) (4 * (j' : ℤ) + c') (4 * (j : ℤ) + c)
      (by omega) h1 (by omega) h2 hcast
    intro heq; exact this (by linarith)

/-- Reading back a pixel written by a column-major pass (`A x = 4*x`, `B = S`). -/
lemma pass2_cols_get (n m : ℕ) (S : ℤ) (vals : ℕ → ℕ → ℤ × ℤ × ℤ × ℤ) (dst : Buf)
    (hS : 4 * (n : ℤ) ≤ S) (k j : ℕ) (c : ℤ)
    (hk : k < n) (hj : j < m) (hc0 : 0 ≤ c) (hc : c < 4) :
    pass2 n m (fun x => 4 * (x : ℤ)) S vals dst (4 * (k : ℤ) + S * (j : ℤ) + c)
      = get4 (vals k j) c := by
  refine pass2_get n m _ S vals k j c hk hj hc0 hc ?_ dst
  intro k' j' hk' hj' hne c' h0' h4'
  rcases eq_or_ne j' j with rfl | hjj
  · have hkk : k' ≠ k := fun h => hne ⟨h, rfl⟩
    have : (4 : ℤ) * (k' : ℤ) + c' ≠ 4 * (k : ℤ) + c := by
      have : (k' : ℤ) ≠ (k : ℤ) := by exact_mod_cast hkk
      omega
    intro heq; omega
  · have h1 : (4 : ℤ) * (k' : ℤ) + c' < S := by
      have : (k' : ℤ) < (n : ℤ) := by exact_mod_cast hk'
      omega
    have h2 : (4 : ℤ) * (k : ℤ) + c < S := by
      have : (k : ℤ) < (n : ℤ) := by exact_mod_cast hk
      omega
    have hcast : ((j' : ℤ)) ≠ (j : ℤ) := by exact_mod_cast hjj
    have := addr_sep S (j' : ℤ) (j : ℤ) (4 * (k' : ℤ) + c') (4 * (k : ℤ) + c)
      (by omega) h1 (by omega) h2 hcast
    intro heq; exact this (by linarith)

/-! ### Claims -/

/-- C7: for every valid buffer, `radius ≤ 0` makes the triple box blur a
byte-identical no-op, and `sigma ≤ 0.1` makes both the scalar and the
vectorized recursive Gaussian byte-identical no-ops. -/
theorem c7_degenerate_params_are_noops
    (base : Buf) (w h stride : ℤ) (hw : 0 < w) (hh : 0 < h) (hs : w * 4 ≤ stride) :
    (∀ radius : ℤ, radius ≤ 0 →
      box3_rgba8888_inplace false base w h stride radius = base) ∧
    (∀ (sqrtQ : ℚ → ℚ) (sigma : ℚ) (doLinear : Bool), sigma ≤ 1 / 10 →
      gaussian_iir_rgba8888_inplace sqrtQ false base w h stride sigma doLinear = base) ∧
    (∀ (rsq : ℚ → ℚ) (sigma : ℚ) (doLinear : Bool), sigma ≤ 1 / 10 →
      gaussian_iir_rgba8888_neon rsq false base w h stride sigma doLinear = base) := by
  refine ⟨fun radius hr => ?_, fun sqrtQ sigma doLinear hσ => ?_, fun rsq sigma doLinear hσ => ?_⟩
  · rw [box3_rgba8888_inplace,
      if_neg (by simp only [Bool.false_eq_true, false_or]; push_neg; omega), if_pos hr]
  · rw [gaussian_iir_rgba8888_inplace,
      if_neg (by simp only [Bool.false_eq_true, false_or]; push_neg; omega), if_pos hσ]
  · rw [gaussian_iir_rgba8888_neon, if_pos (Or.inl hσ)]

/-- C7 witness at a concrete valid 1x1 buffer. -/
theorem c7_degenerate_params_are_noops_witness :
    box3_rgba8888_inplace false (fun _ => 7) 1 1 4 0 = (fun _ => 7) ∧
    gaussian_iir_rgba8888_inplace (fun q => q) false (fun _ => 7) 1 1 4 (1 / 10) false = (fun _ => 7) ∧
    gaussian_iir_rgba8888_neon (fun q => q) false (fun _ => 7) 1 1 4 (1 / 10) false = (fun _ => 7) :=
  ⟨(c7_degenerate_params_are_noops (fun _ => 7) 1 1 4 (by norm_num) (by norm_num)
      (by norm_num)).1 0 (by norm_num),
   (c7_degenerate_params_are_noops (fun _ => 7) 1 1 4 (by norm_num) (by norm_num)
      (by norm_num)).2.1 (fun q => q) (1 / 10) false (by norm_num),
   (c7_degenerate_params_are_noops (fun _ => 7) 1 1 4 (by norm_num) (by norm_num)
      (by norm_num)).2.2 (fun q => q) (1 / 10) false (by norm_num)⟩

/-- C5: the scalar and the NEON coefficient derivations compute identical
coefficient values, and both satisfy exactly the formulas stated in the
specification, for every sigma in the accepted range. -/
theorem c5_deriche_coefficients (sigma : ℚ) (hσ : 1 / 10 < sigma) :
    compute_deriche_coeffs sigma = compute_deriche_coeffs_neon sigma ∧
    compute_deriche_coeffs sigma = spec_deriche_coeffs sigma := by
  constructor
  · rfl
  · rw [compute_deriche_coeffs, spec_deriche_coeffs]
    have h200 : (1695 : ℚ) / 1000 = 339 / 200 := by norm_num
    rw [h200]
    simp only [DericheCoeffs.mk.injEq]
    refine ⟨?_, ?_, ?_, ?_, ?_, ?_, ?_, ?_⟩ <;> ring

/-- C5 witness at `sigma = 2`. -/
theorem c5_deriche_coefficients_witness :
    compute_deriche_coeffs 2 = compute_deriche_coeffs_neon 2 ∧
    compute_deriche_coeffs 2 = spec_deriche_coeffs 2 :=
  c5_deriche_coefficients 2 (by norm_num)

/-- C10: in linear-space mode the un-premultiplication divide happens only
behind a strictly positive alpha threshold: the scalar load substitutes zero
colour channels at or below `0.001`, the NEON load passes the premultiplied
values through unchanged at or below `1e-5`, and above the thresholds both
divide by the (then non-zero) alpha. -/
theorem c10_unpremultiply_guards (bB bG bR bA : ℤ) :
    ((bA : ℚ) / 255 ≤ 1 / 1000 →
      scalarLoadPx true bB bG bR bA = (0, 0, 0, (bA : ℚ) / 255)) ∧
    (1 / 1000 < (bA : ℚ) / 255 →
      scalarLoadPx true bB bG bR bA =
        (srgb_to_linear ((bR : ℚ) / 255 / ((bA : ℚ) / 255)),
         srgb_to_linear ((bG : ℚ) / 255 / ((bA : ℚ) / 255)),
         srgb_to_linear ((bB : ℚ) / 255 / ((bA : ℚ) / 255)), (bA : ℚ) / 255)) ∧
    ((bA : ℚ) / 255 ≤ 1 / 100000 →
      neonLoadPx true bB bG bR bA = ((bR : ℚ) / 255, (bG : ℚ) / 255, (bB : ℚ) / 255, (bA : ℚ) / 255)) ∧
    (1 / 100000 < (bA : ℚ) / 255 →
      neonLoadPx true bB bG bR bA =
        (srgb_to_linear_neon ((bR : ℚ) / 255 * (1 / ((bA : ℚ) / 255))) * ((bA : ℚ) / 255),
         srgb_to_linear_neon ((bG : ℚ) / 255 * (1 / ((bA : ℚ) / 255))) * ((bA : ℚ) / 255),
         srgb_to_linear_neon ((bB : ℚ) / 255 * (1 / ((bA : ℚ) / 255))) * ((bA : ℚ) / 255),
         (bA : ℚ) / 255)) ∧
    (0 : ℚ) < 1 / 1000 ∧ (0 : ℚ) < 1 / 100000 := by
  refine ⟨fun hle => ?_, fun hgt => ?_, fun hle => ?_, fun hgt => ?_, by norm_num, by norm_num⟩
  · rw [scalarLoadPx, if_pos rfl, if_neg (by push_neg; exact hle)]
  · rw [scalarLoadPx, if_pos rfl, if_pos hgt]
  · rw [neonLoadPx, if_neg (by rintro ⟨-, h⟩; exact absurd h (by push_neg; exact hle))]
  · rw [neonLoadPx, if_pos ⟨rfl, hgt⟩]

/-- C10 witness at the fully transparent and the fully opaque byte values. -/
theorem c10_unpremultiply_guards_witness :
    scalarLoadPx true 10 20 30 0 = (0, 0, 0, (0 : ℚ) / 255) ∧
    neonLoadPx true 10 20 30 0 = ((30 : ℚ) / 255, (20 : ℚ) / 255, (10 : ℚ) / 255, (0 : ℚ) / 255) ∧
    scalarLoadPx true 10 20 30 255 =
      (srgb_to_linear ((30 : ℚ) / 255 / ((255 : ℚ) / 255)),
       srgb_to_linear ((20 : ℚ) / 255 / ((255 : ℚ) / 255)),
       srgb_to_linear ((10 : ℚ) / 255 / ((255 : ℚ) / 255)), (255 : ℚ) / 255) :=
  ⟨by
    have h := (c10_unpremultiply_guards 10 20 30 0).1 (by norm_num)
    simpa using h,
   by
    have h := (c10_unpremultiply_guards 10 20 30 0).2.2.1 (by norm_num)
    simpa using h,
   by
    have h := (c10_unpremultiply_guards 10 20 30 255).2.1 (by norm_num)
    simpa using h⟩

/-- C1 counterexample: the vectorized recursive Gaussian does not validate
the stride. On a 1x1 buffer with `stride = 2 < width*4 = 4` and
`sigma = 2` it runs both passes and rewrites byte 0 of the all-255 buffer
to 182, so the claim "every entry point returns without mutating the buffer
on `rowStride < width*4`" is false. -/
theorem c1_counterexample :
    ((2 : ℤ) < 1 * 4) ∧
    gaussian_iir_rgba8888_neon (fun _ => 0) false (fun _ => 255) 1 1 2 2 false 0 = 182 ∧
    (182 : ℤ) ≠ 255 := by
  refine ⟨by norm_num, ?_, by norm_num⟩
  norm_num [gaussian_iir_rgba8888_neon, compute_deriche_coeffs_neon, expQ,
    blur_vertical_neon, blur_horizontal_neon, blur_vertical_neon_col, blur_horizontal_neon_row,
    iir_filter_1d_neon, iirCausalNeon, iirCausalNeonGo, iirAntiNeon, iirAntiNeonGo,
    neonLoadPx, neonStorePx, vadd, vsub, vdupMul, rowfold, writePx, upd,
    List.range_succ, Finset.sum_range_succ, Nat.factorial, min_def, max_def]

/-- C1 amended: the triple box blur, the scalar recursive Gaussian and both
downsample variants validate null pointer, dimensions and stride and return
with the destination untouched; the vectorized recursive Gaussian validates
only null pointer and dimensions (no stride check) and returns untouched on
those failures. -/
theorem c1_amended_validation (base src dst : Buf) (w h stride : ℤ) :
    (∀ (baseNull : Bool) (radius : ℤ),
      (baseNull = true ∨ w ≤ 0 ∨ h ≤ 0 ∨ stride < w * 4) →
      box3_rgba8888_inplace baseNull base w h stride radius = base) ∧
    (∀ (sqrtQ : ℚ → ℚ) (baseNull : Bool) (sigma : ℚ) (doLinear : Bool),
      (baseNull = true ∨ w ≤ 0 ∨ h ≤ 0 ∨ stride < w * 4) →
      gaussian_iir_rgba8888_inplace sqrtQ baseNull base w h stride sigma doLinear = base) ∧
    (∀ (srcNull dstNull : Bool) (radius downscale : ℚ),
      (srcNull = true ∨ dstNull = true ∨ w ≤ 0 ∨ h ≤ 0 ∨ stride < w * 4) →
      advanced_box_blur_rgba8888 srcNull dstNull src dst w h stride radius downscale = dst) ∧
    (∀ (srcNull dstNull : Bool) (radius downscale : ℚ),
      (srcNull = true ∨ dstNull = true ∨ w ≤ 0 ∨ h ≤ 0 ∨ stride < w * 4) →
      advanced_box_blur_rgba8888_hq srcNull dstNull src dst w h stride radius downscale = dst) ∧
    (∀ (rsq : ℚ → ℚ) (baseNull : Bool) (sigma : ℚ) (doLinear : Bool),
      (baseNull = true ∨ w ≤ 0 ∨ h ≤ 0) →
      gaussian_iir_rgba8888_neon rsq baseNull base w h stride sigma doLinear = base) := by
  refine ⟨fun baseNull radius hv => ?_, fun sqrtQ baseNull sigma doLinear hv => ?_,
    fun srcNull dstNull radius downscale hv => ?_, fun srcNull dstNull radius downscale hv => ?_,
    fun rsq baseNull sigma doLinear hv => ?_⟩
  · rw [box3_rgba8888_inplace, if_pos hv]
  · rw [gaussian_iir_rgba8888_inplace, if_pos hv]
  · rw [advanced_box_blur_rgba8888, if_pos hv]
  · rw [advanced_box_blur_rgba8888_hq, if_pos hv]
  · rw [gaussian_iir_rgba8888_neon, if_pos (by tauto)]

/-- C1 amended witness at `w = 0`. -/
theorem c1_amended_validation_witness :
    box3_rgba8888_inplace false (fun _ => 7) 0 1 4 3 = (fun _ => 7) ∧
    gaussian_iir_rgba8888_inplace (fun q => q) false (fun _ => 7) 0 1 4 2 false = (fun _ => 7) ∧
    advanced_box_blur_rgba8888 false false (fun _ => 7) (fun _ => 9) 0 1 4 3 (1 / 2) = (fun _ => 9) ∧
    advanced_box_blur_rgba8888_hq false false (fun _ => 7) (fun _ => 9) 0 1 4 3 (1 / 2) = (fun _ => 9) ∧
    gaussian_iir_rgba8888_neon (fun q => q) false (fun _ => 7) 0 1 4 2 false = (fun _ => 7) :=
  ⟨(c1_amended_validation (fun _ => 7) (fun _ => 7) (fun _ => 9) 0 1 4).1 false 3
      (by norm_num),
   (c1_amended_validation (fun _ => 7) (fun _ => 7) (fun _ => 9) 0 1 4).2.1 (fun q => q) false 2
      false (by norm_num),
   (c1_amended_validation (fun _ => 7) (fun _ => 7) (fun _ => 9) 0 1 4).2.2.1 false false 3
      (1 / 2) (by norm_num),
   (c1_amended_validation (fun _ => 7) (fun _ => 7) (fun _ => 9) 0 1 4).2.2.2.1 false false 3
      (1 / 2) (by norm_num),
   (c1_amended_validation (fun _ => 7) (fun _ => 7) (fun _ => 9) 0 1 4).2.2.2.2 (fun q => q) false
      2 false (by norm_num)⟩

/-- C2: on the length-1 scanline `[1]` with the coefficients derived at
`sigma = 2`, the 1D pass as the spec states it (anticausal sweep over the
original samples) returns exactly `[1]`, but the pass as invoked by the
blur passes (`src == dst`, so the anticausal sweep reads the causal output)
returns a different value -- the in-place aliasing loses the steady-state
normalisation. -/
theorem c2_anticausal_reads_causal_output :
    iir_filter_1d_spec (compute_deriche_coeffs 2) [1] = [1] ∧
    iir_filter_1d_inplace (compute_deriche_coeffs 2) [1] ≠ [1] := by
  constructor
  · norm_num [iir_filter_1d_spec, iirCausal, iirCausalGo, iirAnti, iirAntiGo,
      compute_deriche_coeffs, expQ, Finset.sum_range_succ, Nat.factorial]
  · norm_num [iir_filter_1d_inplace, iirCausal, iirCausalGo, iirAnti, iirAntiGo,
      compute_deriche_coeffs, expQ, Finset.sum_range_succ, Nat.factorial]

/-- C3 counterexample: the vectorized recursive Gaussian applies no upper
clamp to sigma: at `sigma = 1000` it produces a different buffer than at
`sigma = 50` (bytes 143 versus 145 on an all-255 1x1 buffer), so it does
not "produce exactly the result of a call with sigma = 50". -/
theorem c3_counterexample :
    gaussian_iir_rgba8888_neon (fun _ => 0) false (fun _ => 255) 1 1 4 1000 false 0 = 143 ∧
    gaussian_iir_rgba8888_neon (fun _ => 0) false (fun _ => 255) 1 1 4 50 false 0 = 145 ∧
    (143 : ℤ) ≠ 145 := by
  refine ⟨?_, ?_, by norm_num⟩ <;>
  norm_num [gaussian_iir_rgba8888_neon, compute_deriche_coeffs_neon, expQ,
    blur_vertical_neon, blur_horizontal_neon, blur_vertical_neon_col, blur_horizontal_neon_row,
    iir_filter_1d_neon, iirCausalNeon, iirCausalNeonGo, iirAntiNeon, iirAntiNeonGo,
    neonLoadPx, neonStorePx, vadd, vsub, vdupMul, rowfold, writePx, upd,
    List.range_succ, Finset.sum_range_succ, Nat.factorial, min_def, max_def]

/-- C3 amended: the scalar recursive Gaussian clamps `sigma` to 50: for any
buffer and any `sigma > 50` it produces exactly the result of the call with
`sigma = 50`. (The vectorized variant derives its coefficients from the
unclamped sigma, see the counterexample.) -/
theorem c3_amended_scalar_clamps_sigma (sqrtQ : ℚ → ℚ) (baseNull : Bool) (base : Buf)
    (w h stride : ℤ) (doLinear : Bool) (sigma : ℚ) (h50 : 50 < sigma) :
    gaussian_iir_rgba8888_inplace sqrtQ baseNull base w h stride sigma doLinear =
    gaussian_iir_rgba8888_inplace sqrtQ baseNull base w h stride 50 doLinear := by
  rw [gaussian_iir_rgba8888_inplace, gaussian_iir_rgba8888_inplace]
  by_cases hv : (baseNull = true ∨ w ≤ 0 ∨ h ≤ 0 ∨ stride < w * 4)
  · rw [if_pos hv, if_pos hv]
  · have hσ1 : ¬(sigma ≤ 1 / 10) := by linarith
    have hσ2 : ¬((50 : ℚ) ≤ 1 / 10) := by norm_num
    have hcl : (if 50 < sigma then (50 : ℚ) else sigma) = 50 := if_pos h50
    have hcl2 : (if (50 : ℚ) < 50 then (50 : ℚ) else 50) = 50 :=
      if_neg (show ¬((50 : ℚ) < 50) by norm_num)
    rw [if_neg hv, if_neg hv, if_neg hσ1, if_neg hσ2, hcl, hcl2]

/-- C3 amended witness at `sigma = 51` on a concrete buffer. -/
theorem c3_amended_scalar_clamps_sigma_witness :
    gaussian_iir_rgba8888_inplace (fun q => q) false (fun _ => 7) 2 2 8 51 false =
    gaussian_iir_rgba8888_inplace (fun q => q) false (fun _ => 7) 2 2 8 50 false :=
  c3_amended_scalar_clamps_sigma (fun q => q) false (fun _ => 7) 2 2 8 false 51 (by norm_num)

/-- The sliding accumulator equals the clamped window sum at every in-range
position: the incremental `+incoming-outgoing` update is exact. -/
lemma slideSum_eq_winSum (f : ℤ → ℤ) (n r : ℕ) :
    ∀ x : ℕ, x < n → slideSum f n r x = winSum f n r (x : ℤ) := by
  intro x
  induction x with
  | zero => intro _; rfl
  | succ x ih =>
    intro hx
    rw [slideSum, ih (by omega)]
    have hgd : clampIdx n ((x : ℤ) - r + (2 * r + 1)) = min ((n : ℤ) - 1) ((x : ℤ) + r + 1) := by
      unfold clampIdx
      omega
    have hg0 : clampIdx n ((x : ℤ) - r + 0) = max 0 ((x : ℤ) - r) := by
      unfold clampIdx
      have hxn : (x : ℤ) + 1 < n := by exact_mod_cast hx
      omega
    have h2 : winSum f n r ((x + 1 : ℕ) : ℤ)
        = ∑ i ∈ Finset.range (2 * r + 1), f (clampIdx n ((x : ℤ) - r + ((i : ℤ) + 1))) := by
      rw [winSum]
      refine Finset.sum_congr rfl fun i _ => ?_
      congr 1
      congr 1
      push_cast
      ring
    have h3 := Finset.sum_range_succ' (fun i => f (clampIdx n ((x : ℤ) - r + i))) (2 * r + 1)
    have h4 := Finset.sum_range_succ (fun i => f (clampIdx n ((x : ℤ) - r + i))) (2 * r + 1)
    push_cast at h3 h4
    rw [hgd] at h4
    rw [hg0] at h3
    rw [h2, winSum]
    linarith [h3, h4]

/-- `avgByte` is the spec's round-to-nearest of the average. -/
lemma avgByte_eq_roundQ (s : ℤ) (r : ℕ) :
    avgByte s (2 * r + 1) = roundQ ((s : ℚ) / (2 * (r : ℚ) + 1)) := by
  rw [avgByte, roundQ, mul_one_div]
  congr 2
  push_cast
  ring

/-- Reading a pixel channel of the horizontal box-blur output. -/
lemma box_blur_h_get (src dst : Buf) (w h : ℕ) (stride : ℤ) (r : ℕ)
    (hS : 4 * (w : ℤ) ≤ stride) (y : ℤ) (x : ℕ) (c : ℤ)
    (hy0 : 0 ≤ y) (hy : y < (h : ℤ)) (hx : x < w) (hc0 : 0 ≤ c) (hc : c < 4) :
    box_blur_h src dst w h stride r (y * stride + 4 * (x : ℤ) + c)
      = avgByte (slideSum (fun i => src (y * stride + 4 * i + c)) w r x) (2 * r + 1) := by
  have hyy : y = ((y.toNat : ℕ) : ℤ) := by omega
  have hyh : y.toNat < h := by omega
  rw [hyy, box_blur_h, pass2_rows_get h w stride _ dst hS y.toNat x c hyh hx hc0 hc]
  interval_cases c <;> simp [get4]

/-- Reading a pixel channel of the vertical box-blur output. -/
lemma box_blur_v_get (src dst : Buf) (w h : ℕ) (stride : ℤ) (r : ℕ)
    (hS : 4 * (w : ℤ) ≤ stride) (x y : ℕ) (c : ℤ)
    (hx : x < w) (hy : y < h) (hc0 : 0 ≤ c) (hc : c < 4) :
    box_blur_v src dst w h stride r ((y : ℤ) * stride + 4 * (x : ℤ) + c)
      = avgByte (slideSum (fun j => src (j * stride + 4 * (x : ℤ) + c)) h r y) (2 * r + 1) := by
  have haddr : (y : ℤ) * stride + 4 * (x : ℤ) + c = 4 * (x : ℤ) + stride * (y : ℤ) + c := by ring
  rw [haddr, box_blur_v, pass2_cols_get w h stride _ dst hS x y c hx hy hc0 hc]
  interval_cases c <;> simp [get4]

/-- One separable single box-blur pass equals the spec's two sliding-window
averages at every pixel channel. -/
lemma box_blur_single_pass_pixel (src dst : Buf) (w h : ℕ) (stride : ℤ) (r : ℕ)
    (hS : 4 * (w : ℤ) ≤ stride) (x y : ℕ) (c : ℤ)
    (hx : x < w) (hy : y < h) (hc0 : 0 ≤ c) (hc : c < 4) :
    box_blur_single_pass src dst w h stride r ((y : ℤ) * stride + 4 * (x : ℤ) + c)
      = spec_box_pass (gridOf src stride) w h r (x : ℤ) (y : ℤ) c := by
  have hmid : ∀ j : ℤ, 0 ≤ j → j < (h : ℤ) →
      box_blur_h src zeroBuf w h stride r (j * stride + 4 * (x : ℤ) + c)
        = spec_box_h (gridOf src stride) w r (x : ℤ) j c := by
    intro j hj0 hj
    rw [box_blur_h_get src zeroBuf w h stride r hS j x c hj0 hj hx hc0 hc,
      slideSum_eq_winSum _ w r x hx, avgByte_eq_roundQ]
    simp only [spec_box_h, gridOf]
  have hws : winSum (fun j => box_blur_h src zeroBuf w h stride r (j * stride + 4 * (x : ℤ) + c)) h r (y : ℤ)
      = winSum (fun j => spec_box_h (gridOf src stride) w r (x : ℤ) j c) h r (y : ℤ) := by
    rw [winSum, winSum]
    refine Finset.sum_congr rfl fun i _ => ?_
    have hb : 0 ≤ clampIdx h ((y : ℤ) - r + i) ∧ clampIdx h ((y : ℤ) - r + i) < (h : ℤ) := by
      unfold clampIdx
      omega
    exact hmid _ hb.1 hb.2
  rw [box_blur_single_pass,
    box_blur_v_get _ dst w h stride r hS x y c hx hy hc0 hc,
    slideSum_eq_winSum _ h r y hy, avgByte_eq_roundQ, hws]
  simp only [spec_box_pass]

/-- C4: one call to the single box-blur pass writes to each destination
pixel channel `round(S / (2*radius+1))` over the edge-replicated clamped
window, applied first along every row and then along every column of the
horizontal result, each of the 4 channels independently. -/
theorem c4_single_box_pass (src dst : Buf) (w h : ℕ) (stride : ℤ) (r : ℕ)
    (hS : 4 * (w : ℤ) ≤ stride) (hr : 1 ≤ r) (x y : ℕ) (c : ℤ)
    (hx : x < w) (hy : y < h) (hc0 : 0 ≤ c) (hc : c < 4) :
    box_blur_single_pass src dst w h stride r ((y : ℤ) * stride + 4 * (x : ℤ) + c)
      = spec_box_pass (gridOf src stride) w h r (x : ℤ) (y : ℤ) c :=
  box_blur_single_pass_pixel src dst w h stride r hS x y c hx hy hc0 hc

/-- C4 witness on a concrete 2x2 buffer with radius 1. -/
theorem c4_single_box_pass_witness :
    box_blur_single_pass (fun a => a % 7) (fun _ => 9) 2 2 8 1 ((0 : ℤ) * 8 + 4 * 0 + 0)
      = spec_box_pass (gridOf (fun a => a % 7) 8) 2 2 1 0 0 0 :=
  c4_single_box_pass (fun a => a % 7) (fun _ => 9) 2 2 8 1 (by norm_num) (by norm_num)
    0 0 0 (by norm_num) (by norm_num) (by norm_num) (by norm_num)

/-- Row-major store passes never touch an in-row padding address. -/
lemma pass2_rows_pad (n m : ℕ) (stride : ℤ) (vals : ℕ → ℕ → ℤ × ℤ × ℤ × ℤ) (dst : Buf)
    (hws : 4 * (m : ℤ) ≤ stride) (y0 j : ℤ) (hj : 4 * (m : ℤ) ≤ j) (hj2 : j < stride) :
    pass2 n m (fun y => (y : ℤ) * stride) 4 vals dst (y0 * stride + j) = dst (y0 * stride + j) := by
  refine pass2_frame n m _ 4 vals dst _ ?_
  intro k x hk hx c h0 h4
  exact pad_addr_ne stride m hws (k : ℤ) (x : ℤ) (by positivity) (by exact_mod_cast hx)
    c h0 h4 y0 j hj hj2

/-- Column-major store passes never touch an in-row padding address. -/
lemma pass2_cols_pad (n m : ℕ) (stride : ℤ) (vals : ℕ → ℕ → ℤ × ℤ × ℤ × ℤ) (dst : Buf)
    (hws : 4 * (n : ℤ) ≤ stride) (y0 j : ℤ) (hj : 4 * (n : ℤ) ≤ j) (hj2 : j < stride) :
    pass2 n m (fun x => 4 * (x : ℤ)) stride vals dst (y0 * stride + j) = dst (y0 * stride + j) := by
  refine pass2_frame n m _ stride vals dst _ ?_
  intro k x hk hx c h0 h4
  have hne := pad_addr_ne stride n hws (x : ℤ) (k : ℤ) (by positivity) (by exact_mod_cast hk)
    c h0 h4 y0 j hj hj2
  intro heq
  exact hne (by linear_combination heq)

/-- The scalar horizontal Gaussian pass never touches an in-row padding address. -/
lemma blur_horizontal_pad (sqrtQ : ℚ → ℚ) (c : DericheCoeffs) (doLinear : Bool)
    (w h : ℕ) (stride : ℤ) (base : Buf) (hws : 4 * (w : ℤ) ≤ stride)
    (y0 j : ℤ) (hj : 4 * (w : ℤ) ≤ j) (hj2 : j < stride) :
    blur_horizontal sqrtQ c doLinear w h stride base (y0 * stride + j)
      = base (y0 * stride + j) := by
  refine foldl_frame _ _ _ _ ?_
  intro b y hy
  rw [blur_horizontal_row]
  refine rowfold_frame _ _ _ _ _ ?_
  intro x hx cc h0 h4
  exact pad_addr_ne stride w hws (y : ℤ) (x : ℤ) (by positivity) (by exact_mod_cast hx)
    cc h0 h4 y0 j hj hj2

/-- The scalar vertical Gaussian pass never touches an in-row padding address. -/
lemma blur_vertical_pad (sqrtQ : ℚ → ℚ) (c : DericheCoeffs) (doLinear : Bool)
    (w h : ℕ) (stride : ℤ) (base : Buf) (hws : 4 * (w : ℤ) ≤ stride)
    (y0 j : ℤ) (hj : 4 * (w : ℤ) ≤ j) (hj2 : j < stride) :
    blur_vertical sqrtQ c doLinear w h stride base (y0 * stride + j)
      = base (y0 * stride + j) := by
  refine foldl_frame _ _ _ _ ?_
  intro b x hx
  rw [blur_vertical_col]
  refine rowfold_frame _ _ _ _ _ ?_
  intro y hy cc h0 h4
  exact pad_addr_ne stride w hws (y : ℤ) (x : ℤ) (by positivity)
    (by exact_mod_cast List.mem_range.mp hx) cc h0 h4 y0 j hj hj2

/-- The NEON horizontal pass never touches an in-row padding address. -/
lemma blur_horizontal_neon_pad (rsq : ℚ → ℚ) (c : DericheCoeffs) (doLinear : Bool)
    (w h : ℕ) (stride : ℤ) (base : Buf) (hws : 4 * (w : ℤ) ≤ stride)
    (y0 j : ℤ) (hj : 4 * (w : ℤ) ≤ j) (hj2 : j < stride) :
    blur_horizontal_neon rsq c doLinear w h stride base (y0 * stride + j)
      = base (y0 * stride + j) := by
  refine foldl_frame _ _ _ _ ?_
  intro b y hy
  rw [blur_horizontal_neon_row]
  refine rowfold_frame _ _ _ _ _ ?_
  intro x hx cc h0 h4
  exact pad_addr_ne stride w hws (y : ℤ) (x : ℤ) (by positivity) (by exact_mod_cast hx)
    cc h0 h4 y0 j hj hj2

/-- The NEON vertical pass never touches an in-row padding address. -/
lemma blur_vertical_neon_pad (rsq : ℚ → ℚ) (c : DericheCoeffs) (doLinear : Bool)
    (w h : ℕ) (stride : ℤ) (base : Buf) (hws : 4 * (w : ℤ) ≤ stride)
    (y0 j : ℤ) (hj : 4 * (w : ℤ) ≤ j) (hj2 : j < stride) :
    blur_vertical_neon rsq c doLinear w h stride base (y0 * stride + j)
      = base (y0 * stride + j) := by
  refine foldl_frame _ _ _ _ ?_
  intro b x hx
  rw [blur_vertical_neon_col]
  refine rowfold_frame _ _ _ _ _ ?_
  intro y hy cc h0 h4
  exact pad_addr_ne stride w hws (y : ℤ) (x : ℤ) (by positivity)
    (by exact_mod_cast List.mem_range.mp hx) cc h0 h4 y0 j hj hj2

/-- C9: with a stride strictly larger than `width*4`, the scalar recursive
Gaussian, the vectorized recursive Gaussian and both downsample variants
leave every in-row padding byte (offset in `[width*4, stride)`) unchanged;
the triple box blur does not (its final `memcpy` copies scratch padding,
here a concrete 1x1 example whose padding byte 7 becomes 0). -/
theorem c9_padding_bytes_preserved (w h stride : ℤ)
    (hw : 0 < w) (hh : 0 < h) (hs : w * 4 < stride)
    (y0 j : ℤ) (hy0 : 0 ≤ y0) (hy0h : y0 < h) (hj : w * 4 ≤ j) (hj2 : j < stride) :
    (∀ (sqrtQ : ℚ → ℚ) (base : Buf) (sigma : ℚ) (doLinear : Bool),
      gaussian_iir_rgba8888_inplace sqrtQ false base w h stride sigma doLinear (y0 * stride + j)
        = base (y0 * stride + j)) ∧
    (∀ (rsq : ℚ → ℚ) (base : Buf) (sigma : ℚ) (doLinear : Bool),
      gaussian_iir_rgba8888_neon rsq false base w h stride sigma doLinear (y0 * stride + j)
        = base (y0 * stride + j)) ∧
    (∀ (src dst : Buf) (radius downscale : ℚ),
      advanced_box_blur_rgba8888 false false src dst w h stride radius downscale (y0 * stride + j)
        = dst (y0 * stride + j)) ∧
    (∀ (src dst : Buf) (radius downscale : ℚ),
      advanced_box_blur_rgba8888_hq false false src dst w h stride radius downscale (y0 * stride + j)
        = dst (y0 * stride + j)) ∧
    box3_rgba8888_inplace false (fun _ => 7) 1 1 8 1 4 ≠ (7 : ℤ) := by
  have hwt : ((w.toNat : ℤ)) = w := by omega
  have hws : 4 * ((w.toNat : ℤ)) ≤ stride := by omega
  have hj' : 4 * ((w.toNat : ℤ)) ≤ j := by omega
  refine ⟨fun sqrtQ base sigma doLinear => ?_, fun rsq base sigma doLinear => ?_,
    fun src dst radius downscale => ?_, fun src dst radius downscale => ?_, ?_⟩
  · rw [gaussian_iir_rgba8888_inplace,
      if_neg (by simp only [Bool.false_eq_true, false_or]; push_neg; omega)]
    by_cases hσ : sigma ≤ 1 / 10
    · rw [if_pos hσ]
    · rw [if_neg hσ]
      rw [blur_vertical_pad _ _ _ _ _ _ _ hws y0 j hj' hj2,
        blur_horizontal_pad _ _ _ _ _ _ _ hws y0 j hj' hj2]
  · rw [gaussian_iir_rgba8888_neon]
    by_cases hσ : sigma ≤ 1 / 10
    · rw [if_pos (Or.inl hσ)]
    · rw [if_neg (by push_neg; exact ⟨lt_of_not_le hσ, by omega, by omega, by simp⟩)]
      rw [blur_vertical_neon_pad _ _ _ _ _ _ _ hws y0 j hj' hj2,
        blur_horizontal_neon_pad _ _ _ _ _ _ _ hws y0 j hj' hj2]
  · rw [advanced_box_blur_rgba8888,
      if_neg (by simp only [Bool.false_eq_true, false_or]; push_neg; omega)]
    by_cases hr : clampR radius < 1 / 2
    · rw [if_pos hr, copyRows, pass2_rows_pad _ _ _ _ _ hws y0 j hj' hj2]
    · rw [if_neg hr, upsample_nearest, downsample_nearest,
        pass2_rows_pad _ _ _ _ _ hws y0 j hj' hj2]
  · rw [advanced_box_blur_rgba8888_hq,
      if_neg (by simp only [Bool.false_eq_true, false_or]; push_neg; omega)]
    by_cases hr : clampR radius < 1 / 2
    · rw [if_pos hr, copyRows, pass2_rows_pad _ _ _ _ _ hws y0 j hj' hj2]
    · rw [if_neg hr, upsample_bilinear, downsample_bilinear,
        pass2_rows_pad _ _ _ _ _ hws y0 j hj' hj2]
  · have hbox : ∀ b d : Buf, box_blur_single_pass b d 1 1 8 1 4 = d 4 := by
      intro b d
      have := pass2_cols_pad 1 1 8
        (fun x y =>
          (avgByte (slideSum (fun j => box_blur_h b zeroBuf 1 1 8 1 (j * 8 + 4 * (x : ℤ) + 0)) 1 1 y) 3,
           avgByte (slideSum (fun j => box_blur_h b zeroBuf 1 1 8 1 (j * 8 + 4 * (x : ℤ) + 1)) 1 1 y) 3,
           avgByte (slideSum (fun j => box_blur_h b zeroBuf 1 1 8 1 (j * 8 + 4 * (x : ℤ) + 2)) 1 1 y) 3,
           avgByte (slideSum (fun j => box_blur_h b zeroBuf 1 1 8 1 (j * 8 + 4 * (x : ℤ) + 3)) 1 1 y) 3))
        d (by norm_num) 0 4 (by norm_num) (by norm_num)
      simpa [box_blur_single_pass, box_blur_v] using this
    simp only [box3_rgba8888_inplace]
    norm_num [memcpyN, hbox, zeroBuf]

/-- Window sums only look at clamped in-range indices. -/
lemma winSum_congr (f1 f2 : ℤ → ℤ) (n r : ℕ) (hn : 1 ≤ n)
    (hf : ∀ t : ℤ, 0 ≤ t → t < (n : ℤ) → f1 t = f2 t) (x : ℤ) :
    winSum f1 n r x = winSum f2 n r x := by
  rw [winSum, winSum]
  refine Finset.sum_congr rfl fun i _ => ?_
  apply hf <;> (unfold clampIdx; omega)

/-- The spec box pass only evaluates its input grid at in-range coordinates
and at the queried channel. -/
lemma spec_box_pass_congr (g1 g2 : Grid) (w h r : ℕ) (hw : 1 ≤ w) (hh : 1 ≤ h)
    (hg : ∀ xs ys cc : ℤ, 0 ≤ xs → xs < (w : ℤ) → 0 ≤ ys → ys < (h : ℤ) →
      0 ≤ cc → cc < 4 → g1 xs ys cc = g2 xs ys cc)
    (x y cc : ℤ) (hc0 : 0 ≤ cc) (hc : cc < 4) :
    spec_box_pass g1 w h r x y cc = spec_box_pass g2 w h r x y cc := by
  simp only [spec_box_pass]
  have hv : winSum (fun j => spec_box_h g1 w r x j cc) h r y
      = winSum (fun j => spec_box_h g2 w r x j cc) h r y := by
    refine winSum_congr _ _ h r hh (fun j hj0 hjh => ?_) y
    simp only [spec_box_h]
    have := winSum_congr (fun i => g1 i j cc) (fun i => g2 i j cc) w r hw
      (fun t ht0 htw => hg t j cc ht0 htw hj0 hjh hc0 hc) x
    rw [this]
  rw [hv]

/-- Nearest resampling only evaluates its input grid at one in-range source
coordinate and at the queried channel. -/
lemma spec_resample_nearest_congr (g1 g2 : Grid) (srcW srcH dstW dstH : ℕ)
    (hsW : 1 ≤ srcW) (hsH : 1 ≤ srcH)
    (hg : ∀ xs ys cc : ℤ, 0 ≤ xs → xs < (srcW : ℤ) → 0 ≤ ys → ys < (srcH : ℤ) →
      0 ≤ cc → cc < 4 → g1 xs ys cc = g2 xs ys cc)
    (x y cc : ℤ) (hx0 : 0 ≤ x) (hy0 : 0 ≤ y) (hc0 : 0 ≤ cc) (hc : cc < 4) :
    spec_resample_nearest g1 srcW srcH dstW dstH x y cc
      = spec_resample_nearest g2 srcW srcH dstW dstH x y cc := by
  simp only [spec_resample_nearest]
  have hxf : (0 : ℤ) ≤ ⌊(x : ℚ) * ((srcW : ℚ) / (dstW : ℚ))⌋ :=
    Int.floor_nonneg.mpr (by positivity)
  have hyf : (0 : ℤ) ≤ ⌊(y : ℚ) * ((srcH : ℚ) / (dstH : ℚ))⌋ :=
    Int.floor_nonneg.mpr (by positivity)
  exact hg _ _ _ (le_min hxf (by omega)) (lt_of_le_of_lt (min_le_right _ _) (by omega))
    (le_min hyf (by omega)) (lt_of_le_of_lt (min_le_right _ _) (by omega)) hc0 hc

/-- Bilinear resampling only evaluates its input grid at the four in-range
neighbour coordinates and at the queried channel. -/
lemma spec_resample_bilinear_congr (g1 g2 : Grid) (srcW srcH dstW dstH : ℕ)
    (hsW : 1 ≤ srcW) (hsH : 1 ≤ srcH)
    (hg : ∀ xs ys cc : ℤ, 0 ≤ xs → xs < (srcW : ℤ) → 0 ≤ ys → ys < (srcH : ℤ) →
      0 ≤ cc → cc < 4 → g1 xs ys cc = g2 xs ys cc)
    (x y cc : ℤ) (hc0 : 0 ≤ cc) (hc : cc < 4) :
    spec_resample_bilinear g1 srcW srcH dstW dstH x y cc
      = spec_resample_bilinear g2 srcW srcH dstW dstH x y cc := by
  simp only [spec_resample_bilinear]
  set srcX : ℚ := max 0 (min (((x : ℚ) + 1 / 2) * ((srcW : ℚ) / (dstW : ℚ)) - 1 / 2) ((srcW : ℚ) - 1)) with hsrcX
  set srcY : ℚ := max 0 (min (((y : ℚ) + 1 / 2) * ((srcH : ℚ) / (dstH : ℚ)) - 1 / 2) ((srcH : ℚ) - 1)) with hsrcY
  have hX0 : (0 : ℚ) ≤ srcX := le_max_left _ _
  have hY0 : (0 : ℚ) ≤ srcY := le_max_left _ _
  have hX1 : srcX ≤ (srcW : ℚ) - 1 := by
    rw [hsrcX]
    refine max_le ?_ (min_le_right _ _)
    have : (1 : ℚ) ≤ (srcW : ℚ) := by exact_mod_cast hsW
    linarith
  have hY1 : srcY ≤ (srcH : ℚ) - 1 := by
    rw [hsrcY]
    refine max_le ?_ (min_le_right _ _)
    have : (1 : ℚ) ≤ (srcH : ℚ) := by exact_mod_cast hsH
    linarith
  have hx0b : (0 : ℤ) ≤ ⌊srcX⌋ := Int.floor_nonneg.mpr hX0
  have hy0b : (0 : ℤ) ≤ ⌊srcY⌋ := Int.floor_nonneg.mpr hY0
  have hx1b : ⌊srcX⌋ ≤ (srcW : ℤ) - 1 := by
    have h1 : ((srcW : ℤ) - 1 : ℤ) = ⌊((srcW : ℚ) - 1 : ℚ)⌋ := by
      rw [show ((srcW : ℚ) - 1 : ℚ) = (((srcW : ℤ) - 1 : ℤ) : ℚ) by push_cast; ring,
        Int.floor_intCast]
    rw [h1]
    exact Int.floor_le_floor hX1
  have hy1b : ⌊srcY⌋ ≤ (srcH : ℤ) - 1 := by
    have h1 : ((srcH : ℤ) - 1 : ℤ) = ⌊((srcH : ℚ) - 1 : ℚ)⌋ := by
      rw [show ((srcH : ℚ) - 1 : ℚ) = (((srcH : ℤ) - 1 : ℤ) : ℚ) by push_cast; ring,
        Int.floor_intCast]
    rw [h1]
    exact Int.floor_le_floor hY1
  have e00 := hg ⌊srcX⌋ ⌊srcY⌋ cc hx0b (by omega) hy0b (by omega) hc0 hc
  have e10 := hg (min (⌊srcX⌋ + 1) ((srcW : ℤ) - 1)) ⌊srcY⌋ cc (le_min (by omega) (by omega))
    (lt_of_le_of_lt (min_le_right _ _) (by omega)) hy0b (by omega) hc0 hc
  have e01 := hg ⌊srcX⌋ (min (⌊srcY⌋ + 1) ((srcH : ℤ) - 1)) cc hx0b (by omega)
    (le_min (by omega) (by omega)) (lt_of_le_of_lt (min_le_right _ _) (by omega)) hc0 hc
  have e11 := hg (min (⌊srcX⌋ + 1) ((srcW : ℤ) - 1)) (min (⌊srcY⌋ + 1) ((srcH : ℤ) - 1)) cc
    (le_min (by omega) (by omega)) (lt_of_le_of_lt (min_le_right _ _) (by omega))
    (le_min (by omega) (by omega)) (lt_of_le_of_lt (min_le_right _ _) (by omega)) hc0 hc
  rw [e00, e10, e01, e11]

/-- Reading a pixel channel written by `downsample_nearest` gives exactly the
spec's nearest resampling of the source grid. -/
lemma downsample_nearest_get (src dst : Buf) (srcW srcH : ℕ) (srcStride : ℤ)
    (dstW dstH : ℕ) (dstStride : ℤ) (hS : 4 * (dstW : ℤ) ≤ dstStride)
    (x y : ℕ) (c : ℤ) (hx : x < dstW) (hy : y < dstH) (hc0 : 0 ≤ c) (hc : c < 4) :
    downsample_nearest src dst srcW srcH srcStride dstW dstH dstStride
      ((y : ℤ) * dstStride + 4 * (x : ℤ) + c)
      = spec_resample_nearest (gridOf src srcStride) srcW srcH dstW dstH (x : ℤ) (y : ℤ) c := by
  rw [downsample_nearest, pass2_rows_get dstH dstW dstStride _ dst hS y x c hy hx hc0 hc]
  interval_cases c <;> simp [get4, spec_resample_nearest, gridOf]

/-- Reading a pixel channel written by `downsample_bilinear` gives exactly
the spec's bilinear resampling of the source grid. -/
lemma downsample_bilinear_get (src dst : Buf) (srcW srcH : ℕ) (srcStride : ℤ)
    (dstW dstH : ℕ) (dstStride : ℤ) (hS : 4 * (dstW : ℤ) ≤ dstStride)
    (x y : ℕ) (c : ℤ) (hx : x < dstW) (hy : y < dstH) (hc0 : 0 ≤ c) (hc : c < 4) :
    downsample_bilinear src dst srcW srcH srcStride dstW dstH dstStride
      ((y : ℤ) * dstStride + 4 * (x : ℤ) + c)
      = spec_resample_bilinear (gridOf src srcStride) srcW srcH dstW dstH (x : ℤ) (y : ℤ) c := by
  rw [downsample_bilinear, pass2_rows_get dstH dstW dstStride _ dst hS y x c hy hx hc0 hc]
  interval_cases c <;> simp [get4, bilinearByte, spec_resample_bilinear, gridOf]

/-- The fast downsample blur pixel-for-pixel equals: nearest-downsample,
one box pass with the rounded scaled radius, nearest-upsample. -/
lemma advanced_fast_pixel (src dst : Buf) (w h stride : ℤ) (radius downscale : ℚ)
    (hw : 0 < w) (hh : 0 < h) (hs : w * 4 ≤ stride) (hr : ¬(clampR radius < 1 / 2))
    (x y : ℕ) (c : ℤ) (hx : (x : ℤ) < w) (hy : (y : ℤ) < h) (hc0 : 0 ≤ c) (hc : c < 4) :
    advanced_box_blur_rgba8888 false false src dst w h stride radius downscale
      ((y : ℤ) * stride + 4 * (x : ℤ) + c)
      = spec_resample_nearest
          (spec_box_pass
            (spec_resample_nearest (gridOf src stride) w.toNat h.toNat
              (smallDim w (clampDS downscale)).toNat (smallDim h (clampDS downscale)).toNat)
            (smallDim w (clampDS downscale)).toNat (smallDim h (clampDS downscale)).toNat
            (intRadiusOf (clampR radius) (clampDS downscale)).toNat)
          (smallDim w (clampDS downscale)).toNat (smallDim h (clampDS downscale)).toNat
          w.toNat h.toNat (x : ℤ) (y : ℤ) c := by
  have hsmW1 : 1 ≤ smallDim w (clampDS downscale) := le_max_left _ _
  have hsmH1 : 1 ≤ smallDim h (clampDS downscale) := le_max_left _ _
  simp only [advanced_box_blur_rgba8888]
  rw [if_neg (by simp only [Bool.false_eq_true, false_or]; push_neg; omega), if_neg hr]
  set ds := clampDS downscale with hds
  set smW := smallDim w ds with hsmW
  set smH := smallDim h ds with hsmH
  set R := intRadiusOf (clampR radius) ds with hRdef
  have hWc : ((w.toNat : ℤ)) = w := by omega
  have hHc : ((h.toNat : ℤ)) = h := by omega
  have hsmWc : ((smW.toNat : ℤ)) = smW := by omega
  have hsmHc : ((smH.toNat : ℤ)) = smH := by omega
  rw [upsample_nearest]
  rw [downsample_nearest_get _ dst smW.toNat smH.toNat (smW * 4) w.toNat h.toNat stride
    (by omega) x y c (by omega) (by omega) hc0 hc]
  refine spec_resample_nearest_congr _ _ smW.toNat smH.toNat w.toNat h.toNat (by omega)
    (by omega) ?_ (x : ℤ) (y : ℤ) c (by positivity) (by positivity) hc0 hc
  intro xs ys cc hxs0 hxs hys0 hys hcc0 hcc
  simp only [gridOf]
  have hxs' : xs = ((xs.toNat : ℕ) : ℤ) := by omega
  have hys' : ys = ((ys.toNat : ℕ) : ℤ) := by omega
  rw [hxs', hys']
  rw [box_blur_single_pass_pixel _ zeroBuf smW.toNat smH.toNat (smW * 4) R.toNat (by omega)
    xs.toNat ys.toNat cc (by omega) (by omega) hcc0 hcc]
  refine spec_box_pass_congr _ _ smW.toNat smH.toNat R.toNat (by omega) (by omega) ?_
    _ _ cc hcc0 hcc
  intro xs2 ys2 cc2 hxs20 hxs2 hys20 hys2 hcc20 hcc2
  simp only [gridOf]
  have hxs2' : xs2 = ((xs2.toNat : ℕ) : ℤ) := by omega
  have hys2' : ys2 = ((ys2.toNat : ℕ) : ℤ) := by omega
  rw [hxs2', hys2']
  rw [downsample_nearest_get src zeroBuf w.toNat h.toNat stride smW.toNat smH.toNat (smW * 4)
    (by omega) xs2.toNat ys2.toNat cc2 (by omega) (by omega) hcc20 hcc2]

/-- The HQ downsample blur pixel-for-pixel equals: bilinear-downsample,
one box pass with the rounded scaled radius, bilinear-upsample. -/
lemma advanced_hq_pixel (src dst : Buf) (w h stride : ℤ) (radius downscale : ℚ)
    (hw : 0 < w) (hh : 0 < h) (hs : w * 4 ≤ stride) (hr : ¬(clampR radius < 1 / 2))
    (x y : ℕ) (c : ℤ) (hx : (x : ℤ) < w) (hy : (y : ℤ) < h) (hc0 : 0 ≤ c) (hc : c < 4) :
    advanced_box_blur_rgba8888_hq false false src dst w h stride radius downscale
      ((y : ℤ) * stride + 4 * (x : ℤ) + c)
      = spec_resample_bilinear
          (spec_box_pass
            (spec_resample_bilinear (gridOf src stride) w.toNat h.toNat
              (smallDim w (clampDS downscale)).toNat (smallDim h (clampDS downscale)).toNat)
            (smallDim w (clampDS downscale)).toNat (smallDim h (clampDS downscale)).toNat
            (intRadiusOf (clampR radius) (clampDS downscale)).toNat)
          (smallDim w (clampDS downscale)).toNat (smallDim h (clampDS downscale)).toNat
          w.toNat h.toNat (x : ℤ) (y : ℤ) c := by
  have hsmW1 : 1 ≤ smallDim w (clampDS downscale) := le_max_left _ _
  have hsmH1 : 1 ≤ smallDim h (clampDS downscale) := le_max_left _ _
  simp only [advanced_box_blur_rgba8888_hq]
  rw [if_neg (by simp only [Bool.false_eq_true, false_or]; push_neg; omega), if_neg hr]
  set ds := clampDS downscale with hds
  set smW := smallDim w ds with hsmW
  set smH := smallDim h ds with hsmH
  set R := intRadiusOf (clampR radius) ds with hRdef
  have hWc : ((w.toNat : ℤ)) = w := by omega
  have hHc : ((h.toNat : ℤ)) = h := by omega
  have hsmWc : ((smW.toNat : ℤ)) = smW := by omega
  have hsmHc : ((smH.toNat : ℤ)) = smH := by omega
  rw [upsample_bilinear]
  rw [downsample_bilinear_get _ dst smW.toNat smH.toNat (smW * 4) w.toNat h.toNat stride
    (by omega) x y c (by omega) (by omega) hc0 hc]
  refine spec_resample_bilinear_congr _ _ smW.toNat smH.toNat w.toNat h.toNat (by omega)
    (by omega) ?_ (x : ℤ) (y : ℤ) c hc0 hc
  intro xs ys cc hxs0 hxs hys0 hys hcc0 hcc
  simp only [gridOf]
  have hxs' : xs = ((xs.toNat : ℕ) : ℤ) := by omega
  have hys' : ys = ((ys.toNat : ℕ) : ℤ) := by omega
  rw [hxs', hys']
  rw [box_blur_single_pass_pixel _ zeroBuf smW.toNat smH.toNat (smW * 4) R.toNat (by omega)
    xs.toNat ys.toNat cc (by omega) (by omega) hcc0 hcc]
  refine spec_box_pass_congr _ _ smW.toNat smH.toNat R.toNat (by omega) (by omega) ?_
    _ _ cc hcc0 hcc
  intro xs2 ys2 cc2 hxs20 hxs2 hys20 hys2 hcc20 hcc2
  simp only [gridOf]
  have hxs2' : xs2 = ((xs2.toNat : ℕ) : ℤ) := by omega
  have hys2' : ys2 = ((ys2.toNat : ℕ) : ℤ) := by omega
  rw [hxs2', hys2']
  rw [downsample_bilinear_get src zeroBuf w.toNat h.toNat stride smW.toNat smH.toNat (smW * 4)
    (by omega) xs2.toNat ys2.toNat cc2 (by omega) (by omega) hcc20 hcc2]

set_option maxHeartbeats 4000000 in
/-- C6 counterexample: the small-image radius is `radius*downscale` rounded
half-up (`max(1, int(r*ds + 0.5))`), not floored. On a 6x1 image with one
bright pixel, `radius = 5`, `downscale = 1/2` (so `r*ds = 2.5`), the code
produces byte 146 at pixel 0 while the claimed floored-radius pipeline
produces 153. -/
theorem c6_counterexample :
    advanced_box_blur_rgba8888 false false (fun a => if a < 4 then 255 else 0) (fun _ => 0)
      6 1 24 5 (1 / 2) 0 = 146 ∧
    spec_resample_nearest
      (spec_box_pass
        (spec_resample_nearest (gridOf (fun a => if a < 4 then 255 else 0) 24) 6 1 3 1)
        3 1 (intRadiusFloor (clampR 5) (clampDS (1 / 2))).toNat)
      3 1 6 1 0 0 0 = 153 ∧
    (146 : ℤ) ≠ 153 := by
  have c1 : clampDS (1 / 2 : ℚ) = 1 / 2 := by norm_num [clampDS, min_def, max_def]
  have c2 : clampR (5 : ℚ) = 5 := by norm_num [clampR, min_def, max_def]
  have d1 : smallDim 6 (1 / 2 : ℚ) = 3 := by norm_num [smallDim, min_def, max_def]
  have d2 : smallDim 1 (1 / 2 : ℚ) = 1 := by norm_num [smallDim, min_def, max_def]
  have d3 : intRadiusOf 5 (1 / 2 : ℚ) = 3 := by norm_num [intRadiusOf, min_def, max_def]
  have d8 : intRadiusFloor 5 (1 / 2 : ℚ) = 2 := by norm_num [intRadiusFloor, min_def, max_def]
  have d4 : (3 : ℤ).toNat = 3 := rfl
  have d5 : (1 : ℤ).toNat = 1 := rfl
  have d6 : (6 : ℤ).toNat = 6 := rfl
  have d7 : (2 : ℤ).toNat = 2 := rfl
  refine ⟨?_, ?_, by norm_num⟩
  · norm_num [advanced_box_blur_rgba8888, c1, c2, d1, d2, d3, d4, d5, d6,
      downsample_nearest, upsample_nearest, box_blur_single_pass, box_blur_h, box_blur_v,
      pass2, rowfold, writePx, upd, get4, zeroBuf, slideSum, winSum, clampIdx, avgByte,
      List.range_succ, Finset.sum_range_succ, min_def, max_def]
  · norm_num [spec_resample_nearest, spec_box_pass, spec_box_h, gridOf, roundQ,
      c1, c2, d7, d8, winSum, clampIdx, Finset.sum_range_succ, min_def, max_def]

/-- C6 amended: for every valid buffer, radius at least 0.5 after clamping
to [0,25] and downscale clamped to [0.01,1], each downsample variant equals:
resample down (nearest for fast, bilinear for HQ), exactly one box-blur pass
with integer radius `max(1, round(radius*downscale + 1/2))` (round half-up,
not floor), then resample back up with the matching mode. -/
theorem c6_downsample_pipeline (src dst : Buf) (w h stride : ℤ) (radius downscale : ℚ)
    (hw : 0 < w) (hh : 0 < h) (hs : w * 4 ≤ stride) (hr : 1 / 2 ≤ clampR radius)
    (x y : ℕ) (c : ℤ) (hx : (x : ℤ) < w) (hy : (y : ℤ) < h) (hc0 : 0 ≤ c) (hc : c < 4) :
    advanced_box_blur_rgba8888 false false src dst w h stride radius downscale
      ((y : ℤ) * stride + 4 * (x : ℤ) + c)
      = spec_resample_nearest
          (spec_box_pass
            (spec_resample_nearest (gridOf src stride) w.toNat h.toNat
              (smallDim w (clampDS downscale)).toNat (smallDim h (clampDS downscale)).toNat)
            (smallDim w (clampDS downscale)).toNat (smallDim h (clampDS downscale)).toNat
            (intRadiusOf (clampR radius) (clampDS downscale)).toNat)
          (smallDim w (clampDS downscale)).toNat (smallDim h (clampDS downscale)).toNat
          w.toNat h.toNat (x : ℤ) (y : ℤ) c ∧
    advanced_box_blur_rgba8888_hq false false src dst w h stride radius downscale
      ((y : ℤ) * stride + 4 * (x : ℤ) + c)
      = spec_resample_bilinear
          (spec_box_pass
            (spec_resample_bilinear (gridOf src stride) w.toNat h.toNat
              (smallDim w (clampDS downscale)).toNat (smallDim h (clampDS downscale)).toNat)
            (smallDim w (clampDS downscale)).toNat (smallDim h (clampDS downscale)).toNat
            (intRadiusOf (clampR radius) (clampDS downscale)).toNat)
          (smallDim w (clampDS downscale)).toNat (smallDim h (clampDS downscale)).toNat
          w.toNat h.toNat (x : ℤ) (y : ℤ) c :=
  ⟨advanced_fast_pixel src dst w h stride radius downscale hw hh hs (not_lt.mpr hr)
      x y c hx hy hc0 hc,
   advanced_hq_pixel src dst w h stride radius downscale hw hh hs (not_lt.mpr hr)
      x y c hx hy hc0 hc⟩

/-- C6 witness at concrete parameters. -/
theorem c6_downsample_pipeline_witness :
    advanced_box_blur_rgba8888 false false (fun _ => 7) (fun _ => 9) 2 1 8 5 (1 / 2)
      ((0 : ℤ) * 8 + 4 * 0 + 0)
      = spec_resample_nearest
          (spec_box_pass
            (spec_resample_nearest (gridOf (fun _ => 7) 8) (2 : ℤ).toNat (1 : ℤ).toNat
              (smallDim 2 (clampDS (1 / 2))).toNat (smallDim 1 (clampDS (1 / 2))).toNat)
            (smallDim 2 (clampDS (1 / 2))).toNat (smallDim 1 (clampDS (1 / 2))).toNat
            (intRadiusOf (clampR 5) (clampDS (1 / 2))).toNat)
          (smallDim 2 (clampDS (1 / 2))).toNat (smallDim 1 (clampDS (1 / 2))).toNat
          (2 : ℤ).toNat (1 : ℤ).toNat 0 0 0 :=
  (c6_downsample_pipeline (fun _ => 7) (fun _ => 9) 2 1 8 5 (1 / 2) (by norm_num) (by norm_num)
    (by norm_num) (by norm_num [clampR, min_def, max_def]) 0 0 0 (by norm_num) (by norm_num)
    (by norm_num) (by norm_num)).1

/-- C9 witness at concrete dimensions `w = 1, h = 1, stride = 8`, padding
byte offset 4. -/
theorem c9_padding_bytes_preserved_witness :
    gaussian_iir_rgba8888_inplace (fun q => q) false (fun _ => 7) 1 1 8 2 false ((0 : ℤ) * 8 + 4)
      = (fun _ => (7 : ℤ)) ((0 : ℤ) * 8 + 4) ∧
    gaussian_iir_rgba8888_neon (fun q => q) false (fun _ => 7) 1 1 8 2 false ((0 : ℤ) * 8 + 4)
      = (fun _ => (7 : ℤ)) ((0 : ℤ) * 8 + 4) ∧
    advanced_box_blur_rgba8888 false false (fun _ => 7) (fun _ => 9) 1 1 8 3 (1 / 2) ((0 : ℤ) * 8 + 4)
      = (fun _ => (9 : ℤ)) ((0 : ℤ) * 8 + 4) :=
  ⟨(c9_padding_bytes_preserved 1 1 8 (by norm_num) (by norm_num) (by norm_num) 0 4
      (by norm_num) (by norm_num) (by norm_num) (by norm_num)).1 (fun q => q) (fun _ => 7) 2 false,
   (c9_padding_bytes_preserved 1 1 8 (by norm_num) (by norm_num) (by norm_num) 0 4
      (by norm_num) (by norm_num) (by norm_num) (by norm_num)).2.1 (fun q => q) (fun _ => 7) 2 false,
   (c9_padding_bytes_preserved 1 1 8 (by norm_num) (by norm_num) (by norm_num) 0 4
      (by norm_num) (by norm_num) (by norm_num) (by norm_num)).2.2.1 (fun _ => 7) (fun _ => 9) 3 (1 / 2)⟩

end LG
